import Mathlib

/-!
Verification development for the container-use core: the Environment
Lifecycle Manager (`environment` package, `Environment` methods), the File
Mutation Subsystem (`FileRead`/`FileWrite`/`FileEdit`/`FileDelete`) and the
Repository Lock Manager (`repository` package).

Go strings that are manipulated byte-wise (file contents, search/replace
text, match ids) are embedded as `List Nat` (byte values); strings that are
only stored or compared whole (commands, titles, error messages) are
embedded as Lean `String`.  Machine integers are `Nat`/`Int` with explicit
`% 2^32` where overflow matters (the SHA-256 words).  Calls into the
container runtime, the host process table and the OS (dagger, `os/exec`,
`flock`) are oracle parameters: each operation takes the outcomes of its
external calls as explicit arguments and is otherwise a pure function of
the environment state.
-/

/-! ### 32-bit word arithmetic for SHA-256 (crypto/sha256, used by generateMatchID) -/

/-- Bitwise xor of two 32-bit words, by explicit recursion over 32 bits
(fuel-first so the kernel can evaluate it). -/
def xorw : Nat → Nat → Nat → Nat
  | 0, _, _ => 0
  | f + 1, x, y => (if x % 2 = y % 2 then 0 else 1) + 2 * xorw f (x / 2) (y / 2)

/-- Bitwise and of two 32-bit words. -/
def andw : Nat → Nat → Nat → Nat
  | 0, _, _ => 0
  | f + 1, x, y => (if x % 2 = 1 ∧ y % 2 = 1 then 1 else 0) + 2 * andw f (x / 2) (y / 2)

/-- Complement of a 32-bit word. -/
def notw (x : Nat) : Nat := 4294967295 - x

/-- Addition modulo 2^32. -/
def add32 (a b : Nat) : Nat := (a + b) % 4294967296

/-- Right rotation of a 32-bit word. -/
def rotr32 (x n : Nat) : Nat := x / 2 ^ n + x % 2 ^ n * 2 ^ (32 - n)

/-- Logical right shift of a 32-bit word. -/
def shr32 (x n : Nat) : Nat := x / 2 ^ n

def sigma0 (w : Nat) : Nat := xorw 32 (xorw 32 (rotr32 w 7) (rotr32 w 18)) (shr32 w 3)
def sigma1 (w : Nat) : Nat := xorw 32 (xorw 32 (rotr32 w 17) (rotr32 w 19)) (shr32 w 10)
def bigSigma0 (a : Nat) : Nat := xorw 32 (xorw 32 (rotr32 a 2) (rotr32 a 13)) (rotr32 a 22)
def bigSigma1 (e : Nat) : Nat := xorw 32 (xorw 32 (rotr32 e 6) (rotr32 e 11)) (rotr32 e 25)
def shaCh (e f g : Nat) : Nat := xorw 32 (andw 32 e f) (andw 32 (notw e) g)
def shaMaj (a b c : Nat) : Nat := xorw 32 (xorw 32 (andw 32 a b) (andw 32 a c)) (andw 32 b c)

/-- The eight working variables of the SHA-256 compression function. -/
structure Hash8 where
  a : Nat
  b : Nat
  c : Nat
  d : Nat
  e : Nat
  f : Nat
  g : Nat
  h : Nat
deriving DecidableEq

/-- SHA-256 round constants. -/
def shaK : List Nat :=
  [1116352408, 1899447441, 3049323471, 3921009573,
   961987163, 1508970993, 2453635748, 2870763221,
   3624381080, 310598401, 607225278, 1426881987,
   1925078388, 2162078206, 2614888103, 3248222580,
   3835390401, 4022224774, 264347078, 604807628,
   770255983, 1249150122, 1555081692, 1996064986,
   2554220882, 2821834349, 2952996808, 3210313671,
   3336571891, 3584528711, 113926993, 338241895,
   666307205, 773529912, 1294757372, 1396182291,
   1695183700, 1986661051, 2177026350, 2456956037,
   2730485921, 2820302411, 3259730800, 3345764771,
   3516065817, 3600352804, 4094571909, 275423344,
   430227734, 506948616, 659060556, 883997877,
   958139571, 1322822218, 1537002063, 1747873779,
   1955562222, 2024104815, 2227730452, 2361852424,
   2428436474, 2756734187, 3204031479, 3329325298]

/-- SHA-256 initial hash value. -/
def shaH0 : Hash8 :=
  ⟨1779033703, 3144134277, 1013904242, 2773480762,
   1359893119, 2600822924, 528734635, 1541459225⟩

/-- One round of the SHA-256 compression function. -/
def shaRound (st : Hash8) (kw : Nat × Nat) : Hash8 :=
  let t1 := add32 st.h (add32 (bigSigma1 st.e) (add32 (shaCh st.e st.f st.g) (add32 kw.1 kw.2)))
  let t2 := add32 (bigSigma0 st.a) (shaMaj st.a st.b st.c)
  { a := add32 t1 t2, b := st.a, c := st.b, d := st.c,
    e := add32 st.d t1, f := st.e, g := st.f, h := st.g }

/-- Message-schedule extension: prepend 48 further words to the reversed
list of the block's 16 words. -/
def shaExtend : Nat → List Nat → List Nat
  | 0, ws => ws
  | f + 1, ws =>
    let w2 := ws.getD 1 0
    let w7 := ws.getD 6 0
    let w15 := ws.getD 14 0
    let w16 := ws.getD 15 0
    shaExtend f (add32 (add32 w16 (sigma0 w15)) (add32 w7 (sigma1 w2)) :: ws)

/-- Process one 16-word block. -/
def shaCompress (hv : Hash8) (block16 : List Nat) : Hash8 :=
  let ws := (shaExtend 48 block16.reverse).reverse
  let st := (shaK.zip ws).foldl shaRound hv
  { a := add32 hv.a st.a, b := add32 hv.b st.b, c := add32 hv.c st.c, d := add32 hv.d st.d,
    e := add32 hv.e st.e, f := add32 hv.f st.f, g := add32 hv.g st.g, h := add32 hv.h st.h }

/-- Big-endian 8-byte encoding of a length-in-bits. -/
def beBytes8 (n : Nat) : List Nat :=
  [n / 2 ^ 56 % 256, n / 2 ^ 48 % 256, n / 2 ^ 40 % 256, n / 2 ^ 32 % 256,
   n / 2 ^ 24 % 256, n / 2 ^ 16 % 256, n / 2 ^ 8 % 256, n % 256]

/-- SHA-256 padding: append 0x80, zeros to 56 mod 64, then the bit length. -/
def shaPad (msg : List Nat) : List Nat :=
  msg ++ 128 :: List.replicate ((119 - msg.length % 64) % 64) 0 ++ beBytes8 (8 * msg.length)

/-- Group bytes into big-endian 32-bit words. -/
def shaWords : List Nat → List Nat
  | b0 :: b1 :: b2 :: b3 :: rest => (((b0 * 256 + b1) * 256 + b2) * 256 + b3) :: shaWords rest
  | _ => []

/-- Split a word list into 16-word blocks (fuel-driven; fuel bounds the block count). -/
def shaBlocks : Nat → List Nat → List (List Nat)
  | 0, _ => []
  | _ + 1, [] => []
  | f + 1, ws => ws.take 16 :: shaBlocks f (ws.drop 16)

/-- SHA-256 of a byte list, as eight 32-bit words. -/
def sha256words (msg : List Nat) : Hash8 :=
  (shaBlocks (msg.length + 9) (shaWords (shaPad msg))).foldl shaCompress shaH0

/-- Byte value of a lowercase hex digit, as produced by Go's `%x`. -/
def hexDigitByte (n : Nat) : Nat := if n < 10 then 48 + n else 87 + n

/-- The eight hex-digit bytes of a 32-bit word (the first 8 characters of
`fmt.Sprintf("%x", hash)` are exactly the hex digits of the digest's first word). -/
def hex8 (w : Nat) : List Nat :=
  [hexDigitByte (w / 16 ^ 7 % 16), hexDigitByte (w / 16 ^ 6 % 16),
   hexDigitByte (w / 16 ^ 5 % 16), hexDigitByte (w / 16 ^ 4 % 16),
   hexDigitByte (w / 16 ^ 3 % 16), hexDigitByte (w / 16 ^ 2 % 16),
   hexDigitByte (w / 16 % 16), hexDigitByte (w % 16)]

/-- Decimal digits of a natural number, least significant first (fuel-driven). -/
def decDigitsRev : Nat → Nat → List Nat
  | 0, _ => []
  | _ + 1, 0 => []
  | f + 1, n => (48 + n % 10) :: decDigitsRev f (n / 10)

/-- Bytes of Go's `%d` rendering of a non-negative integer. -/
def decimalBytes (n : Nat) : List Nat :=
  if n = 0 then [48] else (decDigitsRev n n).reverse

/-- ASCII byte list of a Lean string literal (used for concrete examples). -/
def asciiBytes (s : String) : List Nat := s.data.map Char.toNat

/-- generateMatchID (filesystem.go): first 8 hex characters of
`sha256("%s:%s:%s:%d" % (targetFile, search, replace, index))`. -/
def generateMatchID (targetFile search replace : List Nat) (index : Nat) : List Nat :=
  hex8 (sha256words (targetFile ++ 58 :: search ++ 58 :: replace ++ 58 :: decimalBytes index)).a

/-! ### FileEdit search resolution (filesystem.go FileEdit, lines 51-124) -/

/-- Embedding of Go `strings.Index(hay, needle)` on byte lists: the first
index at which `needle` occurs in `hay`, or `none` for Go's `-1`. -/
def goIndex (hay needle : List Nat) : Option Nat :=
  if needle.isPrefixOf hay then some 0
  else
    match hay with
    | [] => none
    | _ :: t => (goIndex t needle).map (· + 1)

/-- Result of the FileEdit match-collection loop.  `sliceOOB` models the Go
runtime panic from slicing `contents[cursor:]` with `cursor > len(contents)`
(reachable only for an empty `search`); `outOfFuel` is a model artifact that
is proved unreachable for the fuel used by `findMatches`. -/
inductive ScanResult where
  | found (ms : List Nat)
  | sliceOOB
  | outOfFuel
deriving DecidableEq

/-- The loop of FileEdit: `index := strings.Index(contents[cursor:], search)`;
on a hit the match position `cursor+index` is recorded and the cursor moves
to `cursor+index+1` (one byte past the match START, not past its end). -/
def scanMatches (contents search : List Nat) : Nat → Nat → ScanResult
  | 0, _ => .outOfFuel
  | fuel + 1, cursor =>
    if contents.length < cursor then .sliceOOB
    else
      match goIndex (contents.drop cursor) search with
      | none => .found []
      | some index =>
        match scanMatches contents search fuel (cursor + index + 1) with
        | .found rest => .found ((cursor + index) :: rest)
        | r => r

/-- The `matches` list computed by FileEdit before any error handling. -/
def findMatches (contents search : List Nat) : ScanResult :=
  scanMatches contents search (contents.length + 2) 0

/-- Every position of `contents` at which `search` literally occurs
(overlapping occurrences included).  Used to characterise `findMatches`. -/
def allOccurrences (contents search : List Nat) : List Nat :=
  match contents with
  | [] => if search.isPrefixOf ([] : List Nat) then [0] else []
  | _ :: rest =>
    (if search.isPrefixOf contents then [0] else []) ++
      (allOccurrences rest search).map (· + 1)

/-- Modelled from the spec: the spec's "every non-overlapping literal
occurrence of `search` in `path`'s contents, in left-to-right scan order" —
a greedy scan that resumes one full match LENGTH past each hit.  This is the
spec-side notion, to be compared with the source-side `findMatches`. -/
def specScanNonOverlap (contents search : List Nat) : Nat → Nat → List Nat
  | 0, _ => []
  | fuel + 1, cursor =>
    match goIndex (contents.drop cursor) search with
    | none => []
    | some index =>
      (cursor + index) :: specScanNonOverlap contents search fuel (cursor + index + search.length)

/-- Modelled from the spec: non-overlapping occurrences, left to right. -/
def specNonOverlapMatches (contents search : List Nat) : List Nat :=
  specScanNonOverlap contents search (contents.length + 1) 0

/-- Outcome of FileEdit's pure search-and-replace core.  `notFound` is
`"search text not found in file %s"`, `ambiguousMatch` carries the ids listed
in the `"multiple matches found"` error, `matchIDNotFound` is
`"match ID %s not found"`, `panicked` is the slice-bounds runtime panic. -/
inductive FileEditResult where
  | ok (newContents : List Nat)
  | notFound
  | ambiguousMatch (ids : List (List Nat))
  | matchIDNotFound
  | panicked
deriving DecidableEq

/-- The loop `for i, matchIndex := range matches { if generateMatchID(...) == matchID ... }`:
first match position whose recomputed id equals `matchID`. -/
def findTarget (targetFile search replace matchID : List Nat) : List Nat → Nat → Option Nat
  | [], _ => none
  | m :: rest, i =>
    if generateMatchID targetFile search replace i = matchID then some m
    else findTarget targetFile search replace matchID rest (i + 1)

/-- FileEdit (filesystem.go lines 51-124), given the file contents read from
the container (the read and the patch application are external oracle steps,
see `Env.fileEdit`).  The empty `matchID` models Go's absent (`""`) id. -/
def FileEdit (targetFile contents search replace matchID : List Nat) : FileEditResult :=
  match findMatches contents search with
  | .sliceOOB => .panicked
  | .outOfFuel => .panicked
  | .found ms =>
    if ms.length = 0 then .notFound
    else if 1 < ms.length ∧ matchID = [] then
      .ambiguousMatch ((List.range ms.length).map (generateMatchID targetFile search replace))
    else
      match (if ms.length = 1 then ms.head? else findTarget targetFile search replace matchID ms 0) with
      | none => .matchIDNotFound
      | some t => .ok (contents.take t ++ replace ++ contents.drop (t + search.length))

/-! ### FileRead (filesystem.go lines 12-40) -/

/-- Possible FileRead failures: `startOutOfRange` is the
`"start_line_one_indexed_inclusive (%d) cannot be less than 1"` error,
`endBeforeStart` the `"end_line_one_indexed_inclusive (%d) must be greater
than start_line_one_indexed_inclusive (%d)"` error. -/
inductive FileReadErr where
  | startOutOfRange (startLine : Int)
  | endBeforeStart (endLine startLine : Int)
deriving DecidableEq

/-- Embedding of Go `strings.Split(file, "\n")` on byte lists (newline = 10). -/
def splitNl : List Nat → List (List Nat)
  | [] => [[]]
  | c :: rest =>
    if c = 10 then [] :: splitNl rest
    else
      match splitNl rest with
      | [] => [[c]]
      | l :: ls => (c :: l) :: ls

/-- FileRead's line-range logic, given the contents read from the container
(the read itself is an external oracle step).  Translated clamp for clamp:
`start = startLine-1`, `start = max(start, 0)`, clamp to `len-1`, dead
`start < 0` check, `end` clamp to `len-1`, `end < start` check, then
`strings.Join(lines[start:end], "\n")`. -/
def FileRead (file : List Nat) (shouldReadEntireFile : Bool) (startLine endLine : Int) :
    Except FileReadErr (List Nat) :=
  if shouldReadEntireFile then .ok file
  else
    let lines := splitNl file
    let n : Int := lines.length
    let start0 := startLine - 1
    let start1 := max start0 0
    let start2 := if start1 ≥ n then n - 1 else start1
    if start2 < 0 then .error (.startOutOfRange startLine)
    else
      let e0 := if endLine ≥ n then n - 1 else endLine
      if e0 < start2 then .error (.endBeforeStart endLine startLine)
      else .ok (List.intercalate [10] ((lines.drop start2.toNat).take (e0 - start2).toNat))

/-! ### Environment data model (environment.go)

The struct definitions for `State`, `EnvironmentConfig`, `BackgroundProcess`
and the `Notes` log are not part of the provided sources (only their uses
in environment.go/filesystem.go are); their fields are reconstructed from
those uses and from the spec's data model (§3). -/

/-- Modelled from the spec: `EnvironmentConfig` — declarative build recipe
(`baseImage`, `workdir`, ordered `setupCommands`/`installCommands`, ordered
`env` and `secrets` entry lists), matching every field access in
environment.go. -/
structure EnvironmentConfig where
  baseImage : String
  workdir : String
  setupCommands : List String
  installCommands : List String
  env : List String
  secrets : List String
deriving DecidableEq

/-- Modelled from the spec: `BackgroundProcess` — pid, command, shell,
allocated ports, workdir, start time (time as an abstract `Nat` tick). -/
structure BackgroundProcess where
  pid : Nat
  command : String
  shell : String
  ports : List Nat
  workdir : String
  startedAt : Nat
deriving DecidableEq

/-- Modelled from the spec: one entry of the append-only `Notes` log.
`Notes.AddCommand(cmd, exitCode, stdout, stderr)` appends a `command` entry;
`Notes.Add(format, args...)` appends a formatted `text` entry. -/
inductive Note where
  | command (cmd : String) (exitCode : Int) (stdout stderr : String)
  | text (msg : String)
deriving DecidableEq

/-- Modelled from the spec: the `State` persisted for an Environment —
config, title, timestamps and the snapshot reference (`Container`, either a
runtime container id or the sentinel `"host"`), plus tracked host-mode
background processes.  Field accesses match environment.go throughout. -/
structure State where
  config : EnvironmentConfig
  title : String
  createdAt : Nat
  updatedAt : Nat
  container : String
  backgroundProcesses : List BackgroundProcess
deriving DecidableEq

/-- An Environment: its persisted state plus its Notes log (dagger client
and mutex are operational artifacts; mutual exclusion is modelled by the
operations being atomic functions on `Env`). -/
structure Env where
  state : State
  notes : List Note
deriving DecidableEq

/-- ASCII lowering of one byte, as done by `strings.EqualFold` on ASCII. -/
def lowerByte (c : Nat) : Nat := if 65 ≤ c ∧ c ≤ 90 then c + 32 else c

/-- Embedding of `strings.EqualFold(baseImage, "host")` (environment.go
`IsHost`): case-insensitive comparison with `"host"`. -/
def isHostImage (baseImage : String) : Bool :=
  (asciiBytes baseImage).map lowerByte = asciiBytes "host"

/-- `Environment.IsHost`. -/
def Env.isHost (e : Env) : Bool := isHostImage e.state.config.baseImage

/-- Embedding of `strings.Cut(s, "=")`: split at the first `=`;
`none` models Go's `found == false`. -/
def cutEqChars : List Char → Option (List Char × List Char)
  | [] => none
  | c :: rest =>
    if c = '=' then some ([], rest)
    else (cutEqChars rest).map fun p => (c :: p.1, p.2)

/-- `strings.Cut(s, "=")` on strings. -/
def cutEq (s : String) : Option (String × String) :=
  (cutEqChars s.data).map fun p => (p.1.asString, p.2.asString)

/-- Embedding of Go `strings.TrimSpace` for ASCII whitespace. -/
def isSpaceByte (c : Char) : Bool :=
  c = ' ' ∨ c = '\t' ∨ c = '\n' ∨ c = '\r' ∨ c = '\x0b' ∨ c = '\x0c'

/-- `strings.TrimSpace`. -/
def trimSpace (s : String) : String :=
  (((s.data.dropWhile isSpaceByte).reverse.dropWhile isSpaceByte).reverse).asString

/-- `combineStdoutStderr` (environment.go lines 575-583): stdout plus a
tagged stderr section when stderr is non-empty. -/
def combineStdoutStderr (stdout stderr : String) : String :=
  if stderr = "" then stdout
  else if stdout = "" then "stderr: " ++ stderr
  else stdout ++ "\n" ++ "stderr: " ++ stderr

/-- `Environment.apply` (environment.go lines 135-152): sync the new
container state and store its id.  The dagger `Sync`/`ID` round-trip is the
oracle `syncIdRes`; on its failure the state is untouched (both calls happen
before the mutex section that mutates `UpdatedAt`/`Container`). -/
def Env.apply (e : Env) (now : Nat) (syncIdRes : Except String String) : Env × Option String :=
  match syncIdRes with
  | .error m => (e, some m)
  | .ok containerID =>
    ({ e with state := { e.state with updatedAt := now, container := containerID } }, none)

/-- `Environment.applyHost` (environment.go lines 565-572): bump
`UpdatedAt` and mark the container state as `"host"`. -/
def Env.applyHost (e : Env) (now : Nat) : Env :=
  { e with state := { e.state with updatedAt := now, container := "host" } }

/-! ### Build sequence (environment.go buildBase, containerWithEnvAndSecrets, buildHostEnv) -/

/-- Configuration errors from `containerWithEnvAndSecrets`:
`"invalid env variable: %s"` / `"invalid secret: %s"`. -/
inductive CfgErr where
  | invalidEnv (entry : String)
  | invalidSecret (entry : String)
deriving DecidableEq

/-- The env-variable loop of `containerWithEnvAndSecrets`: each entry must
`strings.Cut` on `=`; the first entry that does not produces the error. -/
def parseKVs (entries : List String) : Except String (List (String × String)) :=
  match entries with
  | [] => .ok []
  | e :: rest =>
    match cutEq e with
    | none => .error e
    | some kv => (parseKVs rest).map (kv :: ·)

/-- `containerWithEnvAndSecrets` (environment.go lines 154-175): validate and
collect the env pairs, then the secret pairs; the container operations
(`WithEnvVariable`/`WithSecretVariable`) are external, so the applied pairs
are returned for inspection. -/
def containerWithEnvAndSecrets (envs secrets : List String) :
    Except CfgErr (List (String × String) × List (String × String)) :=
  match parseKVs envs with
  | .error e => .error (.invalidEnv e)
  | .ok envPairs =>
    match parseKVs secrets with
    | .error s => .error (.invalidSecret s)
    | .ok secretPairs => .ok (envPairs, secretPairs)

/-- Oracle outcome of one container `WithExec` + `ExitCode`/`Stdout`/`Stderr`
round-trip inside the container-mode `runCommands` closure. -/
inductive CmdOutcome where
  | execError (exitCode : Int) (stdout stderr : String)
  | otherError (msg : String)
  | stdoutError (msg : String)
  | stderrError (msg : String)
  | ok (exitCode : Int) (stdout stderr : String)

/-- Failure of a build command sequence. -/
inductive RunCmdsErr where
  | cmdExit (cmd : String) (exitCode : Int) (stdout stderr : String)
  | infra (msg : String)
deriving DecidableEq

/-- Container-mode `runCommands` closure (environment.go lines 230-260):
run each command in order, appending a Notes entry on every completed
command (also on a non-zero-exit `ExecError`), stopping at the first
failure.  Returns the commands actually handed to the runtime, the Notes
entries appended, and the error if any. -/
def runCommandsC (out : Nat → CmdOutcome) : List String → Nat →
    List String × List Note × Option RunCmdsErr
  | [], _ => ([], [], none)
  | c :: rest, i =>
    match out i with
    | .execError code so se => ([c], [.command c code so se], some (.cmdExit c code so se))
    | .otherError m => ([c], [], some (.infra m))
    | .stdoutError m => ([c], [], some (.infra ("failed to get stdout: " ++ m)))
    | .stderrError m => ([c], [], some (.infra ("failed to get stderr: " ++ m)))
    | .ok code so se =>
      let r := runCommandsC out rest (i + 1)
      (c :: r.1, .command c code so se :: r.2.1, r.2.2)

/-- Oracle outcome of one host `exec.CommandContext(...).CombinedOutput()`
call: the combined output plus Go's error value (an `*exec.ExitError`
carrying the exit code, some other start failure, or success). -/
inductive HostExecErr where
  | exitErr (exitCode : Int) (msg : String)
  | otherErr (msg : String)
deriving DecidableEq

/-- Error message carried by a host exec failure (`err.Error()`). -/
def HostExecErr.msg : HostExecErr → String
  | .exitErr _ m => m
  | .otherErr m => m

/-- Host-mode `runCommands` closure (environment.go lines 181-207): the exit
code is 0 on success, the `ExitError` code, or 1 for any other failure;
`stderr` is `err.Error()`; the Notes entry is appended BEFORE the error is
returned, and the loop stops at the first failure. -/
def runCommandsH (out : Nat → String × Option HostExecErr) : List String → Nat →
    List String × List Note × Option (String × HostExecErr)
  | [], _ => ([], [], none)
  | c :: rest, i =>
    let (output, errOpt) := out i
    let exitCode : Int :=
      match errOpt with
      | none => 0
      | some (.exitErr code _) => code
      | some (.otherErr _) => 1
    let stderr := match errOpt with | none => "" | some er => er.msg
    match errOpt with
    | some er => ([c], [.command c exitCode output stderr], some (c, er))
    | none =>
      let r := runCommandsH out rest (i + 1)
      (c :: r.1, .command c exitCode output stderr :: r.2.1, r.2.2)

/-- `buildHostEnv` (environment.go lines 591-608): `os.Environ()` plus the
configured env entries appended VERBATIM (no validation), plus each secret
`KEY=ENV_NAME` resolved from the host environment — entries that do not cut
on `=` are silently skipped (`continue`), as are names the host does not
define.  `environ`/`lookup` are the `os.Environ`/`os.LookupEnv` oracles. -/
def buildHostEnv (cfg : EnvironmentConfig) (environ : List String)
    (lookup : String → Option String) : List String :=
  environ ++ cfg.env ++
    cfg.secrets.filterMap fun kv =>
      match cutEq kv with
      | none => none
      | some (k, v) => (lookup v).map fun val => k ++ "=" ++ val

/-- Build failures surfaced by `buildBase`. -/
inductive BuildErr where
  | config (c : CfgErr)
  | setupFailed (e : RunCmdsErr)
  | servicesFailed (msg : String)
  | installFailed (e : RunCmdsErr)
  | hostSetupFailed (cmd : String) (e : HostExecErr)
  | hostInstallFailed (cmd : String) (e : HostExecErr)
deriving DecidableEq

/-- Observable output of a `buildBase` run: which commands were handed to
the runtime/host, the Notes entries appended, the environment handed to host
subprocesses (host mode only), and the overall result. -/
structure BuildOut where
  executed : List String
  notes : List Note
  hostEnv : List String
  result : Except BuildErr Unit
deriving Inhabited

/-- Oracles consumed by a container-mode `buildBase`. -/
structure BuildOracle where
  setup : Nat → CmdOutcome
  install : Nat → CmdOutcome
  servicesRes : Except String Unit

/-- Container-mode `buildBase` (environment.go lines 220-283): base image +
workdir (external), `containerWithEnvAndSecrets` BEFORE any command, setup
commands, `startServices`, source directory, install commands; it stops at
the first failing step.  No command reaches the runtime when an env/secret
entry is malformed. -/
def buildBaseContainer (cfg : EnvironmentConfig) (o : BuildOracle) : BuildOut :=
  match containerWithEnvAndSecrets cfg.env cfg.secrets with
  | .error ce => { executed := [], notes := [], hostEnv := [], result := .error (.config ce) }
  | .ok _ =>
    let s := runCommandsC o.setup cfg.setupCommands 0
    match s.2.2 with
    | some e => { executed := s.1, notes := s.2.1, hostEnv := [], result := .error (.setupFailed e) }
    | none =>
      match o.servicesRes with
      | .error m =>
        { executed := s.1, notes := s.2.1, hostEnv := [], result := .error (.servicesFailed m) }
      | .ok _ =>
        let ins := runCommandsC o.install cfg.installCommands 0
        match ins.2.2 with
        | some e =>
          { executed := s.1 ++ ins.1, notes := s.2.1 ++ ins.2.1, hostEnv := [],
            result := .error (.installFailed e) }
        | none =>
          { executed := s.1 ++ ins.1, notes := s.2.1 ++ ins.2.1, hostEnv := [],
            result := .ok () }

/-- Oracles consumed by a host-mode `buildBase`. -/
structure HostBuildOracle where
  setup : Nat → String × Option HostExecErr
  install : Nat → String × Option HostExecErr
  environ : List String
  lookup : String → Option String

/-- Host-mode `buildBase` (environment.go lines 179-218): build the host
environment (NO validation of `env`/`secrets`), then run setup and install
commands directly, stopping at the first failure. -/
def buildBaseHost (cfg : EnvironmentConfig) (o : HostBuildOracle) : BuildOut :=
  let hostEnv := buildHostEnv cfg o.environ o.lookup
  let s := runCommandsH o.setup cfg.setupCommands 0
  match s.2.2 with
  | some (c, e) =>
    { executed := s.1, notes := s.2.1, hostEnv := hostEnv,
      result := .error (.hostSetupFailed c e) }
  | none =>
    let ins := runCommandsH o.install cfg.installCommands 0
    match ins.2.2 with
    | some (c, e) =>
      { executed := s.1 ++ ins.1, notes := s.2.1 ++ ins.2.1, hostEnv := hostEnv,
        result := .error (.hostInstallFailed c e) }
    | none =>
      { executed := s.1 ++ ins.1, notes := s.2.1 ++ ins.2.1, hostEnv := hostEnv,
        result := .ok () }

/-! ### Run, UpdateConfig, file mutations, background processes (environment.go) -/

/-- Error channel of container-mode `Run`: each constructor corresponds to
one `fmt.Errorf` site; a command's own non-zero exit never appears here. -/
inductive RunErr where
  | exitCodeFetch (msg : String)
  | stdoutFetch (msg : String)
  | stderrFetch (msg : String)
  | applyFailed (msg : String)
deriving DecidableEq

/-- Boolean success of an `Except`. -/
def exOk {ε α : Type} : Except ε α → Bool
  | .ok _ => true
  | .error _ => false

/-- Container-mode `Run` (environment.go lines 341-383): `WithExec` with
`Expect: ReturnTypeAny` (so a non-zero exit is data, not an error), fetch
exit code / stdout / stderr (each fetch an oracle), append the Notes entry,
ALWAYS apply the new container state, and return stdout plus a tagged
stderr section.  `shell`/`useEntrypoint` only shape the external exec. -/
def Env.runContainer (e : Env) (command shell : String) (useEntrypoint : Bool) (now : Nat)
    (exitCodeRes : Except String Int) (stdoutRes stderrRes : Except String String)
    (syncIdRes : Except String String) : Env × Except RunErr String :=
  match exitCodeRes with
  | .error m => (e, .error (.exitCodeFetch m))
  | .ok exitCode =>
    match stdoutRes with
    | .error m => (e, .error (.stdoutFetch m))
    | .ok stdout =>
      match stderrRes with
      | .error m => (e, .error (.stderrFetch m))
      | .ok stderr =>
        let e1 : Env := { e with notes := e.notes ++ [.command command exitCode stdout stderr] }
        match e1.apply now syncIdRes with
        | (e2, some m) => (e2, .error (.applyFailed m))
        | (e2, none) =>
          let combinedOutput :=
            if stderr = "" then stdout
            else (if stdout = "" then stdout else stdout ++ "\n") ++ "stderr: " ++ stderr
          (e2, .ok combinedOutput)

/-- Host-mode `Run` (environment.go lines 315-338): blank commands return
immediately; otherwise the subprocess result (oracle) is recorded in Notes
and the combined output returned.  The host path NEVER returns an error and
NEVER touches `State` (no apply, no `UpdatedAt`). -/
def Env.runHost (e : Env) (command shell : String)
    (execRes : String × Option HostExecErr) : Env × Except RunErr String :=
  if trimSpace command = "" then (e, .ok "")
  else
    let (output, errOpt) := execRes
    let exitCode : Int :=
      match errOpt with
      | none => 0
      | some (.exitErr code _) => code
      | some (.otherErr _) => 1
    let stdout := output
    let stderr := match errOpt with | none => "" | some er => er.msg
    ({ e with notes := e.notes ++ [.command command exitCode stdout stderr] },
      .ok (combineStdoutStderr stdout stderr))

/-- Error channel of `UpdateConfig`. -/
inductive UpErr where
  | build (b : BuildErr)
  | applyFailed (msg : String)
deriving DecidableEq

/-- `UpdateConfig` (environment.go lines 285-312).  The FIRST statement is
`env.State.Config = newConfig`; only then is the base rebuilt, and on a
build failure the error is returned with the new config still in place.
On success `apply` (container mode, with the dagger sync oracle) or
`applyHost` stores the new snapshot reference. -/
def Env.updateConfig (e : Env) (newConfig : EnvironmentConfig) (now : Nat)
    (co : BuildOracle) (ho : HostBuildOracle) (syncIdRes : Except String String) :
    Env × Except UpErr Unit :=
  let e0 : Env := { e with state := { e.state with config := newConfig } }
  if e0.isHost then
    let b := buildBaseHost newConfig ho
    let e1 : Env := { e0 with notes := e0.notes ++ b.notes }
    match b.result with
    | .error err => (e1, .error (.build err))
    | .ok _ => (e1.applyHost now, .ok ())
  else
    let b := buildBaseContainer newConfig co
    let e1 : Env := { e0 with notes := e0.notes ++ b.notes }
    match b.result with
    | .error err => (e1, .error (.build err))
    | .ok _ =>
      match e1.apply now syncIdRes with
      | (e2, some m) => (e2, .error (.applyFailed m))
      | (e2, none) => (e2, .ok ())

/-- `FileWrite` (filesystem.go lines 42-49): `WithNewFile` + `apply`
(oracle), then a `"Write %s"` Notes entry; on apply failure the error is
`"failed applying file write, skipping git propagation"`. -/
def Env.fileWrite (e : Env) (targetFile : String) (now : Nat)
    (syncIdRes : Except String String) : Env × Except String Unit :=
  match e.apply now syncIdRes with
  | (e1, some m) => (e1, .error ("failed applying file write, skipping git propagation: " ++ m))
  | (e1, none) =>
    ({ e1 with notes := e1.notes ++ [.text ("Write " ++ targetFile)] }, .ok ())

/-- Error channel of the stateful `FileEdit`. -/
inductive FileEditErr where
  | readFailed (msg : String)
  | searchNotFound
  | ambiguous (ids : List (List Nat))
  | matchIDNotFound
  | panicked
  | applyFailed (msg : String)
deriving DecidableEq

/-- Stateful `FileEdit` (filesystem.go lines 51-124): read the contents
(oracle), resolve the match via the pure `FileEdit` core, express the change
as a patch and `apply` it (oracle), then a `"Edit %s"` Notes entry. -/
def Env.fileEdit (e : Env) (targetFile : String)
    (search replace matchID : List Nat) (now : Nat)
    (readRes : Except String (List Nat)) (syncIdRes : Except String String) :
    Env × Except FileEditErr Unit :=
  match readRes with
  | .error m => (e, .error (.readFailed m))
  | .ok contents =>
    match FileEdit (asciiBytes targetFile) contents search replace matchID with
    | .notFound => (e, .error .searchNotFound)
    | .ambiguousMatch ids => (e, .error (.ambiguous ids))
    | .matchIDNotFound => (e, .error .matchIDNotFound)
    | .panicked => (e, .error .panicked)
    | .ok _ =>
      match e.apply now syncIdRes with
      | (e1, some m) => (e1, .error (.applyFailed m))
      | (e1, none) =>
        ({ e1 with notes := e1.notes ++ [.text ("Edit " ++ targetFile)] }, .ok ())

/-- `FileDelete` (filesystem.go lines 126-133): `WithoutFile` + `apply`
(oracle), then a `"Delete %s"` Notes entry. -/
def Env.fileDelete (e : Env) (targetFile : String) (now : Nat)
    (syncIdRes : Except String String) : Env × Except String Unit :=
  match e.apply now syncIdRes with
  | (e1, some m) => (e1, .error ("failed applying file delete, skipping git propagation: " ++ m))
  | (e1, none) =>
    ({ e1 with notes := e1.notes ++ [.text ("Delete " ++ targetFile)] }, .ok ())

/-- One endpoint mapping returned by RunBackground. -/
structure EndpointMapping where
  environmentInternal : String
  hostExternal : String
deriving DecidableEq

/-- Oracles of host-mode `RunBackground`: the per-port `chooseHostPort`
results (indexed by position in the requested list) and the
`cmd.Start()` outcome (pid on success). -/
structure RBHostOracle where
  choose : Nat → Except String Nat
  startRes : Except String Nat

/-- The port-choosing loop of host-mode RunBackground. -/
def choosePorts (choose : Nat → Except String Nat) : List Nat → Nat → Except String (List Nat)
  | [], _ => .ok []
  | _ :: rest, i =>
    match choose i with
    | .error m => .error m
    | .ok p => (choosePorts choose rest (i + 1)).map (p :: ·)

/-- Host-mode `RunBackground` (environment.go lines 386-437): choose ports,
start a detached subprocess (not awaited), record the `BackgroundProcess`
and bump `UpdatedAt` under the lock, append a `command+" &"` Notes entry,
and return loopback endpoints for every chosen port.  On a start failure a
Notes entry with exit code 1 is appended and the error returned. -/
def Env.runBackgroundHost (e : Env) (command shell : String) (ports : List Nat) (now : Nat)
    (o : RBHostOracle) : Env × Except String (List (Nat × EndpointMapping)) :=
  if trimSpace command = "" then (e, .error "background command is empty")
  else
    match choosePorts o.choose ports 0 with
    | .error m => (e, .error m)
    | .ok chosen =>
      let displayCommand := command ++ " &"
      match o.startRes with
      | .error m =>
        ({ e with notes := e.notes ++ [.command displayCommand 1 "" m] }, .error m)
      | .ok pid =>
        let bp : BackgroundProcess :=
          { pid := pid, command := command, shell := shell, ports := chosen,
            workdir := e.state.config.workdir, startedAt := now }
        let e1 : Env :=
          { e with state :=
              { e.state with
                backgroundProcesses := e.state.backgroundProcesses ++ [bp],
                updatedAt := now } }
        let e2 : Env := { e1 with notes := e1.notes ++ [.command displayCommand 0 "" ""] }
        (e2, .ok (chosen.map fun port =>
          (port, { environmentInternal := "tcp://127.0.0.1:" ++ toString port,
                   hostExternal := "tcp://127.0.0.1:" ++ toString port })))

/-- Outcome of `AsService(...).Start(startCtx)` in container-mode
RunBackground: a command failure, the `serviceStartTimeout` deadline, some
other failure, or a started service. -/
inductive SvcStartRes where
  | execError (exitCode : Int) (stdout stderr : String)
  | deadline (timeoutMsg : String)
  | otherErr (msg : String)
  | started

/-- Error channel of container-mode RunBackground. -/
inductive RBCtrErr where
  | cmdFailed (exitCode : Int) (stdout stderr : String)
  | startTimeout (msg : String)
  | startOther (msg : String)
  | tunnelFailed (msg : String)
  | endpointFailed (msg : String)
deriving DecidableEq

/-- Oracles of container-mode `RunBackground`. -/
structure RBCtrOracle where
  startRes : SvcStartRes
  tunnelEndpoint : Nat → Except String String
  svcEndpoint : Nat → Except String String

/-- The per-port tunnel/endpoint loop of container-mode RunBackground. -/
def bindEndpoints (o : RBCtrOracle) : List Nat → Except RBCtrErr (List (Nat × EndpointMapping))
  | [] => .ok []
  | port :: rest =>
    match o.tunnelEndpoint port with
    | .error m => .error (.tunnelFailed m)
    | .ok ext =>
      match o.svcEndpoint port with
      | .error m => .error (.endpointFailed m)
      | .ok int =>
        (bindEndpoints o rest).map
          ((port, { environmentInternal := int, hostExternal := ext }) :: ·)

/-- Container-mode `RunBackground` (environment.go lines 439-513): expose the
requested ports, start the container as a service against the
`serviceStartTimeout` deadline; a deadline expiry appends a Notes entry with
exit code 137; a started service appends a success Notes entry, then the
per-port tunnels/endpoints are resolved.  The environment STATE is never
touched (no apply, no `UpdatedAt`). -/
def Env.runBackgroundContainer (e : Env) (command shell : String) (ports : List Nat)
    (o : RBCtrOracle) : Env × Except RBCtrErr (List (Nat × EndpointMapping)) :=
  let displayCommand := command ++ " &"
  match o.startRes with
  | .execError code so se =>
    ({ e with notes := e.notes ++ [.command displayCommand code so se] },
      .error (.cmdFailed code so se))
  | .deadline m =>
    ({ e with notes := e.notes ++ [.command displayCommand 137 "" m] },
      .error (.startTimeout m))
  | .otherErr m => (e, .error (.startOther m))
  | .started =>
    let e1 : Env := { e with notes := e.notes ++ [.command displayCommand 0 "" ""] }
    match bindEndpoints o ports with
    | .error err => (e1, .error err)
    | .ok endpoints => (e1, .ok endpoints)

/-- Error channel of `KillBackground`:
`unsupported` is `"kill is only supported in host mode"`,
`processNotFound` is `"process not found: %w"` (only possible when the
platform's `os.FindProcess` itself fails — it never does on Unix). -/
inductive KillErr where
  | unsupported
  | processNotFound (msg : String)
deriving DecidableEq

/-- Signal-level side effects of `KillBackground`, in order. -/
inductive KillAction where
  | sigterm (pid : Nat)
  | sleepMs (ms : Nat)
  | sigkill (pid : Nat)
deriving DecidableEq

/-- `KillBackground` (environment.go lines 634-662): host mode only;
`os.FindProcess` (oracle `findRes`; always succeeds on Unix), SIGTERM, a
fixed 500ms grace sleep, SIGKILL, then EVERY tracked entry with the pid is
removed, `UpdatedAt` bumped and a Notes entry appended.  The tracked
`backgroundProcesses` list is never consulted for an error. -/
def Env.killBackground (e : Env) (pid : Nat) (now : Nat) (findRes : Except String Unit) :
    Env × List KillAction × Except KillErr Unit :=
  if ¬e.isHost then (e, [], .error .unsupported)
  else
    match findRes with
    | .error m => (e, [], .error (.processNotFound m))
    | .ok _ =>
      let e1 : Env :=
        { e with state :=
            { e.state with
              backgroundProcesses := e.state.backgroundProcesses.filter (fun bp => bp.pid ≠ pid),
              updatedAt := now } }
      let e2 : Env :=
        { e1 with notes := e1.notes ++ [.text ("Stopped background process PID=" ++ toString pid)] }
      (e2, [.sigterm pid, .sleepMs 500, .sigkill pid], .ok ())

/-! ### Repository Lock Manager (lock.go)

`flock.TryLockContext(ctx, 100ms)` polls the OS advisory lock until the
context's deadline.  The OS lock's availability at the i-th poll is the
oracle trace `avail`; the caller-supplied deadline is `deadlineMs`.  The
run is recorded as an event trace so that release-on-every-exit-path is a
derived property, not a baked-in one.  Go's `defer rl.Unlock()` runs on
normal return, error return and panic unwinding alike, so the `unlocked`
event follows the protected function's event on every acquired path. -/

/-- Outcome of the protected function handed to WithLock/WithRLock. -/
inductive FnOutcome where
  | ok
  | err (msg : String)
  | panics
deriving DecidableEq

/-- Events of one WithLock/WithRLock run. -/
inductive LockEv where
  | pollFail (i : Nat)
  | acquired (i : Nat)
  | fnInvoked
  | unlocked
deriving DecidableEq

/-- Result of a WithLock/WithRLock call. -/
inductive WLResult where
  | ok
  | err (msg : String)
  | panicked
  | lockTimeout
deriving DecidableEq

/-- `const retryDelay = 100 * time.Millisecond` (lock.go). -/
def retryDelayMs : Nat := 100

/-- Number of poll attempts that fit before a deadline of `deadlineMs`
elapses: polls happen at times `0, 100, 200, ...` while the context is
live, i.e. ⌈deadlineMs / 100⌉ attempts. -/
def pollCount (deadlineMs : Nat) : Nat :=
  (deadlineMs + retryDelayMs - 1) / retryDelayMs

/-- The retry loop of `flock.TryLockContext`: try, and on failure wait
100ms and retry until the deadline cancels the context. -/
def tryLockPolls (avail : Nat → Bool) : Nat → Nat → List LockEv × Bool
  | 0, _ => ([], false)
  | n + 1, i =>
    if avail i then ([.acquired i], true)
    else
      let r := tryLockPolls avail n (i + 1)
      (.pollFail i :: r.1, r.2)

/-- `RepositoryLock.Lock`/`RLock` (lock.go lines 87-115): bounded polling
acquisition; both the wrapped `TryLockContext` error and the `!locked` case
surface as an acquisition failure. -/
def lockAcquire (avail : Nat → Bool) (deadlineMs : Nat) : List LockEv × Bool :=
  tryLockPolls avail (pollCount deadlineMs) 0

/-- Mapping of the protected function's own outcome onto the WithLock
result (`return fn()` propagates it unchanged). -/
def propagateOutcome : FnOutcome → WLResult
  | .ok => .ok
  | .err m => .err m
  | .panics => .panicked

/-- Event emitted by running the protected function. -/
def fnEvent : FnOutcome → LockEv
  | _ => .fnInvoked

/-- `RepositoryLock.WithLock` (lock.go lines 123-130): acquire (bounded by
the caller's deadline); on failure return the timeout error WITHOUT calling
`fn`; otherwise `defer Unlock()` and `return fn()`. -/
def RepositoryLock.WithLock (avail : Nat → Bool) (deadlineMs : Nat) (fn : FnOutcome) :
    List LockEv × WLResult :=
  let r := lockAcquire avail deadlineMs
  if r.2 then (r.1 ++ [fnEvent fn, .unlocked], propagateOutcome fn)
  else (r.1, .lockTimeout)

/-- `RepositoryLock.WithRLock` (lock.go lines 133-140): identical control
flow over `TryRLockContext`; `ravail` is the shared-acquisition trace. -/
def RepositoryLock.WithRLock (ravail : Nat → Bool) (deadlineMs : Nat) (fn : FnOutcome) :
    List LockEv × WLResult :=
  let r := tryLockPolls ravail (pollCount deadlineMs) 0
  if r.2 then (r.1 ++ [fnEvent fn, .unlocked], propagateOutcome fn)
  else (r.1, .lockTimeout)

/-- Effect of one event on whether this process holds the lock. -/
def heldStep (held : Bool) (ev : LockEv) : Bool :=
  match ev with
  | .acquired _ => true
  | .unlocked => false
  | _ => held

/-- Whether this process still holds the lock after a trace of events. -/
def heldAfter (evs : List LockEv) : Bool := evs.foldl heldStep false

/-- Whether the protected function ran. -/
def invokedFn (evs : List LockEv) : Bool :=
  evs.any fun ev =>
    match ev with
    | .fnInvoked => true
    | _ => false

/-- Number of lock-polling attempts in a trace. -/
def pollsIn (evs : List LockEv) : Nat :=
  evs.countP fun ev =>
    match ev with
    | .pollFail _ => true
    | .acquired _ => true
    | _ => false

/-! ### Lemmas about the FileEdit scan -/

theorem goIndex_some_occurs {hay needle : List Nat} {i : Nat}
    (h : goIndex hay needle = some i) : needle.isPrefixOf (hay.drop i) = true := by
  induction hay generalizing i with
  | nil =>
    unfold goIndex at h
    split at h
    · next hp => cases h; simpa using hp
    · simp at h
  | cons c t ih =>
    unfold goIndex at h
    split at h
    · next hp => cases h; simpa using hp
    · next hp =>
      simp only [Option.map_eq_some'] at h
      obtain ⟨j, hj, rfl⟩ := h
      simpa [List.drop_succ_cons] using ih hj

theorem goIndex_none_no_occurrence {hay needle : List Nat}
    (h : goIndex hay needle = none) (j : Nat) : needle.isPrefixOf (hay.drop j) = false := by
  induction hay generalizing j with
  | nil =>
    unfold goIndex at h
    split at h
    · simp at h
    · next hp =>
      simp only [List.drop_nil]
      cases hq : needle.isPrefixOf ([] : List Nat)
      · rfl
      · exact absurd (by simpa using hq) hp
  | cons c t ih =>
    unfold goIndex at h
    split at h
    · simp at h
    · next hp =>
      simp only [Option.map_eq_none'] at h
      cases j with
      | zero =>
        simp only [List.drop_zero]
        cases hq : needle.isPrefixOf (c :: t)
        · rfl
        · exact absurd (by simpa using hq) hp
      | succ k => simpa [List.drop_succ_cons] using ih h k

theorem goIndex_some_min {hay needle : List Nat} {i : Nat}
    (h : goIndex hay needle = some i) (j : Nat) (hj : j < i) :
    needle.isPrefixOf (hay.drop j) = false := by
  induction hay generalizing i j with
  | nil =>
    unfold goIndex at h
    split at h
    · cases h; omega
    · simp at h
  | cons c t ih =>
    unfold goIndex at h
    split at h
    · cases h; omega
    · next hp =>
      simp only [Option.map_eq_some'] at h
      obtain ⟨m, hm, rfl⟩ := h
      cases j with
      | zero =>
        simp only [List.drop_zero]
        cases hq : needle.isPrefixOf (c :: t)
        · rfl
        · exact absurd (by simpa using hq) hp
      | succ k =>
        simpa [List.drop_succ_cons] using ih hm k (by omega)

theorem prefix_drop_lt {hay needle : List Nat} {i : Nat} (hn : needle ≠ [])
    (h : needle.isPrefixOf (hay.drop i) = true) : i < hay.length := by
  by_contra hc
  push_neg at hc
  rw [List.drop_eq_nil_of_le hc] at h
  cases needle with
  | nil => exact hn rfl
  | cons x xs => simp [List.isPrefixOf] at h

theorem allOccurrences_nil_def (needle : List Nat) :
    allOccurrences [] needle = if needle.isPrefixOf ([] : List Nat) then [0] else [] := rfl

theorem allOccurrences_cons_def (c : Nat) (t needle : List Nat) :
    allOccurrences (c :: t) needle
      = (if needle.isPrefixOf (c :: t) then [0] else [])
          ++ (allOccurrences t needle).map (· + 1) := rfl

theorem allOccurrences_eq_nil {hay needle : List Nat}
    (h : goIndex hay needle = none) : allOccurrences hay needle = [] := by
  induction hay with
  | nil =>
    rw [allOccurrences_nil_def]
    have h0 := goIndex_none_no_occurrence h 0
    simp only [List.drop_zero] at h0
    simp [h0]
  | cons c t ih =>
    unfold goIndex at h
    split at h
    · simp at h
    · next hp =>
      simp only [Option.map_eq_none'] at h
      rw [allOccurrences_cons_def, if_neg hp, ih h]
      simp

theorem allOccurrences_cons {hay needle : List Nat} {i : Nat} (hn : needle ≠ [])
    (h : goIndex hay needle = some i) :
    allOccurrences hay needle
      = i :: (allOccurrences (hay.drop (i + 1)) needle).map (· + (i + 1)) := by
  induction hay generalizing i with
  | nil =>
    have hlt := prefix_drop_lt hn (goIndex_some_occurs h)
    simp at hlt
  | cons c t ih =>
    unfold goIndex at h
    split at h
    · next hp =>
      cases h
      rw [allOccurrences_cons_def, if_pos hp]
      simp [List.drop_succ_cons]
    · next hp =>
      simp only [Option.map_eq_some'] at h
      obtain ⟨j, hj, rfl⟩ := h
      rw [allOccurrences_cons_def, if_neg hp, ih hj]
      simp only [List.nil_append, List.map_cons, List.map_map, List.drop_succ_cons]
      congr 1

theorem scan_spec {search : List Nat} (hs : search ≠ []) :
    ∀ (fuel : Nat) (contents : List Nat) (cursor : Nat),
      cursor ≤ contents.length → contents.length + 2 ≤ cursor + fuel →
      scanMatches contents search fuel cursor
        = .found ((allOccurrences (contents.drop cursor) search).map (· + cursor)) := by
  intro fuel
  induction fuel with
  | zero => intro contents cursor h1 h2; omega
  | succ f ih =>
    intro contents cursor h1 h2
    unfold scanMatches
    rw [if_neg (by omega)]
    split
    · next hg => rw [allOccurrences_eq_nil hg]; rfl
    · next index hg =>
      have hpre := goIndex_some_occurs hg
      have hidx : index < (contents.drop cursor).length := prefix_drop_lt hs hpre
      rw [List.length_drop] at hidx
      rw [ih contents (cursor + index + 1) (by omega) (by omega)]
      rw [allOccurrences_cons hs hg]
      simp only [List.map_cons, List.map_map, List.drop_drop]
      refine congrArg ScanResult.found ?_
      congr 1
      · omega
      · apply List.map_congr_left
        intro x _
        simp only [Function.comp_apply]
        omega

theorem findMatches_eq {contents search : List Nat} (hs : search ≠ []) :
    findMatches contents search = .found (allOccurrences contents search) := by
  unfold findMatches
  rw [scan_spec hs (contents.length + 2) contents 0 (by omega) (by omega)]
  simp

/-! ### Lemmas about the lock acquisition loop -/

theorem tryLockPolls_fail_foldl (avail : Nat → Bool) :
    ∀ (n i : Nat), (tryLockPolls avail n i).2 = false →
      ∀ b, (tryLockPolls avail n i).1.foldl heldStep b = b := by
  intro n
  induction n with
  | zero => intro i _ b; rfl
  | succ m ih =>
    intro i h b
    unfold tryLockPolls at h ⊢
    split at h
    · simp at h
    · next ha =>
      rw [if_neg ha]
      simpa [heldStep] using ih (i + 1) (by simpa using h) b

theorem tryLockPolls_no_fn (avail : Nat → Bool) :
    ∀ (n i : Nat), invokedFn (tryLockPolls avail n i).1 = false := by
  intro n
  induction n with
  | zero => intro i; rfl
  | succ m ih =>
    intro i
    unfold tryLockPolls
    split
    · simp [invokedFn]
    · simpa [invokedFn, List.any_cons] using ih (i + 1)

theorem tryLockPolls_fail_iff (avail : Nat → Bool) :
    ∀ (n i : Nat), (tryLockPolls avail n i).2 = false ↔
      ∀ j, i ≤ j → j < i + n → avail j = false := by
  intro n
  induction n with
  | zero =>
    intro i
    constructor
    · intro _ j h1 h2; omega
    · intro _; rfl
  | succ m ih =>
    intro i
    unfold tryLockPolls
    split
    · next ha =>
      simp only [Bool.true_eq_false, false_iff]
      intro hall
      exact absurd ha (by simp [hall i (by omega) (by omega)])
    · next ha =>
      rw [show ((LockEv.pollFail i :: (tryLockPolls avail m (i+1)).1,
            (tryLockPolls avail m (i+1)).2) : List LockEv × Bool).2
          = (tryLockPolls avail m (i+1)).2 from rfl]
      rw [ih (i + 1)]
      constructor
      · intro hall j h1 h2
        rcases Nat.eq_or_lt_of_le h1 with rfl | hlt
        · simpa using ha
        · exact hall j (by omega) (by omega)
      · intro hall j h1 h2
        exact hall j (by omega) (by omega)

theorem tryLockPolls_poll_bound (avail : Nat → Bool) :
    ∀ (n i : Nat), (tryLockPolls avail n i).1.countP
      (fun ev => match ev with
        | .pollFail _ => true
        | .acquired _ => true
        | _ => false) ≤ n := by
  intro n
  induction n with
  | zero => intro i; simp [tryLockPolls]
  | succ m ih =>
    intro i
    unfold tryLockPolls
    split
    · simp [List.countP_cons]
    · simpa [List.countP_cons] using Nat.add_le_add_right (ih (i + 1)) 1

theorem tryLockPolls_mem_pollFail (avail : Nat → Bool) :
    ∀ (n i j : Nat), LockEv.pollFail j ∈ (tryLockPolls avail n i).1 → i ≤ j ∧ j < i + n := by
  intro n
  induction n with
  | zero => intro i j h; simp [tryLockPolls] at h
  | succ m ih =>
    intro i j h
    unfold tryLockPolls at h
    split at h
    · simp at h
    · simp only [List.mem_cons, LockEv.pollFail.injEq] at h
      rcases h with rfl | h
      · omega
      · have := ih (i + 1) j h
        omega

theorem tryLockPolls_mem_acquired (avail : Nat → Bool) :
    ∀ (n i j : Nat), LockEv.acquired j ∈ (tryLockPolls avail n i).1 → i ≤ j ∧ j < i + n := by
  intro n
  induction n with
  | zero => intro i j h; simp [tryLockPolls] at h
  | succ m ih =>
    intro i j h
    unfold tryLockPolls at h
    split at h
    · simp at h; omega
    · simp only [List.mem_cons] at h
      rcases h with h | h
      · simp at h
      · have := ih (i + 1) j h
        omega

/-- Reduction of FileEdit once the match list is known. -/
theorem FileEdit_found (targetFile contents search replace matchID ms : List Nat)
    (h : findMatches contents search = .found ms) :
    FileEdit targetFile contents search replace matchID
      = if ms.length = 0 then .notFound
        else if 1 < ms.length ∧ matchID = [] then
          .ambiguousMatch ((List.range ms.length).map (generateMatchID targetFile search replace))
        else
          match (if ms.length = 1 then ms.head?
                 else findTarget targetFile search replace matchID ms 0) with
          | none => .matchIDNotFound
          | some t => .ok (contents.take t ++ replace ++ contents.drop (t + search.length)) := by
  unfold FileEdit
  rw [h]

/-- A generated match id is never the empty (absent) id: it always has
eight hex digits. -/
theorem generateMatchID_ne_nil (targetFile search replace : List Nat) (i : Nat) :
    generateMatchID targetFile search replace i ≠ [] := by
  simp [generateMatchID, hex8]

/-- C3 counterexample: on contents "aaa" with search "aa" (file "f",
replace "b", no matchId) there is exactly ONE non-overlapping occurrence,
so the claim requires a replacement; the code instead finds TWO (overlapping)
matches and fails AmbiguousMatch. -/
theorem c3_counterexample :
    specNonOverlapMatches [97, 97, 97] [97, 97] = [0] ∧
    FileEdit [102] [97, 97, 97] [97, 97] [98] []
      = .ambiguousMatch [generateMatchID [102] [97, 97] [98] 0,
                         generateMatchID [102] [97, 97] [98] 1] := by
  constructor
  · rfl
  · rfl

/-- C3 (amended): for a nonempty search, FileEdit considers every position
at which search literally occurs — overlapping occurrences included, since
the scan resumes one byte past each match START: zero occurrences fail
NotFound; exactly one occurrence is replaced without a matchId; two or more
occurrences without a matchId fail AmbiguousMatch with one id per
occurrence. -/
theorem c3_occurrence_resolution (targetFile contents search replace : List Nat)
    (hs : search ≠ []) :
    (allOccurrences contents search = [] →
      FileEdit targetFile contents search replace [] = .notFound) ∧
    (∀ p, allOccurrences contents search = [p] →
      FileEdit targetFile contents search replace []
        = .ok (contents.take p ++ replace ++ contents.drop (p + search.length))) ∧
    (2 ≤ (allOccurrences contents search).length →
      FileEdit targetFile contents search replace []
        = .ambiguousMatch ((List.range (allOccurrences contents search).length).map
            (generateMatchID targetFile search replace))) := by
  refine ⟨fun h => ?_, fun p h => ?_, fun h => ?_⟩
  · rw [FileEdit_found _ _ _ _ _ _ (findMatches_eq hs), h]
    simp
  · rw [FileEdit_found _ _ _ _ _ _ (findMatches_eq hs), h]
    simp
  · rw [FileEdit_found _ _ _ _ _ _ (findMatches_eq hs)]
    rw [if_neg (by omega), if_pos ⟨by omega, rfl⟩]

/-- C3 witness: a file with no occurrence fails NotFound; a file with one
occurrence is edited; the counterexample file with two (overlapping)
occurrences is ambiguous. -/
theorem c3_occurrence_resolution_witness :
    FileEdit (asciiBytes "f") (asciiBytes "hello") (asciiBytes "xyz") (asciiBytes "q") []
      = .notFound ∧
    FileEdit (asciiBytes "f") (asciiBytes "hello world") (asciiBytes "world") (asciiBytes "q") []
      = .ok ((asciiBytes "hello world").take 6 ++ asciiBytes "q"
          ++ (asciiBytes "hello world").drop (6 + (asciiBytes "world").length)) := by
  constructor
  · exact (c3_occurrence_resolution (asciiBytes "f") (asciiBytes "hello") (asciiBytes "xyz")
      (asciiBytes "q") (by decide)).1 (by decide)
  · exact (c3_occurrence_resolution (asciiBytes "f") (asciiBytes "hello world")
      (asciiBytes "world") (asciiBytes "q") (by decide)).2.1 6 (by decide)

/-- C10: when the contents contain the (nonempty) search at exactly one
position, FileEdit ignores the supplied matchId entirely and replaces that
occurrence — even a matchId that matches no recomputed id does not produce
NotFound. -/
theorem c10_single_match_ignores_id (targetFile contents search replace matchID : List Nat)
    (p : Nat) (hs : search ≠ []) (hm : allOccurrences contents search = [p]) :
    FileEdit targetFile contents search replace matchID
      = .ok (contents.take p ++ replace ++ contents.drop (p + search.length)) := by
  rw [FileEdit_found _ _ _ _ _ _ (findMatches_eq hs), hm]
  simp

set_option maxRecDepth 40000 in
/-- C10 witness: a bogus matchId (equal to no generated id) still replaces
the unique occurrence. -/
theorem c10_single_match_ignores_id_witness :
    asciiBytes "bogus" ≠ generateMatchID (asciiBytes "f") (asciiBytes "world")
      (asciiBytes "there") 0 ∧
    FileEdit (asciiBytes "f") (asciiBytes "hello world") (asciiBytes "world")
      (asciiBytes "there") (asciiBytes "bogus")
      = .ok ((asciiBytes "hello world").take 6 ++ asciiBytes "there"
          ++ (asciiBytes "hello world").drop (6 + (asciiBytes "world").length)) := by
  constructor
  · decide
  · exact c10_single_match_ignores_id (asciiBytes "f") (asciiBytes "hello world")
      (asciiBytes "world") (asciiBytes "there") (asciiBytes "bogus") 6 (by decide) (by decide)

/-- C4: on contents containing the (nonempty) search at exactly three
positions, FileEdit without a matchId fails AmbiguousMatch with exactly the
three ids generateMatchID(path, search, replace, 0..2) — each id a pure
function of path, search, replace and ordinal alone, hence identical across
repeated calls; supplying one of those ids (they are pairwise distinct as
hypotheses, discharged concretely in the witness) replaces exactly the
corresponding occurrence and leaves the rest of the contents byte-identical;
supplying a fresh non-empty id equal to none of them fails NotFound. -/
theorem c4_ambiguous_ids (targetFile contents search replace : List Nat)
    (p0 p1 p2 : Nat) (hs : search ≠ [])
    (hm : allOccurrences contents search = [p0, p1, p2]) :
    (FileEdit targetFile contents search replace []
      = .ambiguousMatch [generateMatchID targetFile search replace 0,
                         generateMatchID targetFile search replace 1,
                         generateMatchID targetFile search replace 2]) ∧
    (FileEdit targetFile contents search replace (generateMatchID targetFile search replace 0)
      = .ok (contents.take p0 ++ replace ++ contents.drop (p0 + search.length))) ∧
    (generateMatchID targetFile search replace 0 ≠ generateMatchID targetFile search replace 1 →
      FileEdit targetFile contents search replace (generateMatchID targetFile search replace 1)
        = .ok (contents.take p1 ++ replace ++ contents.drop (p1 + search.length))) ∧
    (generateMatchID targetFile search replace 0 ≠ generateMatchID targetFile search replace 2 →
      generateMatchID targetFile search replace 1 ≠ generateMatchID targetFile search replace 2 →
      FileEdit targetFile contents search replace (generateMatchID targetFile search replace 2)
        = .ok (contents.take p2 ++ replace ++ contents.drop (p2 + search.length))) ∧
    (∀ matchID, matchID ≠ [] →
      matchID ≠ generateMatchID targetFile search replace 0 →
      matchID ≠ generateMatchID targetFile search replace 1 →
      matchID ≠ generateMatchID targetFile search replace 2 →
      FileEdit targetFile contents search replace matchID = .matchIDNotFound) := by
  refine ⟨?_, ?_, fun h01 => ?_, fun h02 h12 => ?_, fun matchID hne h0 h1 h2 => ?_⟩
  · rw [FileEdit_found _ _ _ _ _ _ (findMatches_eq hs), hm]
    rfl
  · rw [FileEdit_found _ _ _ _ _ _ (findMatches_eq hs), hm,
      if_neg (by simp), if_neg (fun hand => generateMatchID_ne_nil _ _ _ 0 hand.2),
      if_neg (by simp)]
    simp only [findTarget]
    simp
  · rw [FileEdit_found _ _ _ _ _ _ (findMatches_eq hs), hm,
      if_neg (by simp), if_neg (fun hand => generateMatchID_ne_nil _ _ _ 1 hand.2),
      if_neg (by simp)]
    simp only [findTarget]
    rw [if_neg h01]
    simp
  · rw [FileEdit_found _ _ _ _ _ _ (findMatches_eq hs), hm,
      if_neg (by simp), if_neg (fun hand => generateMatchID_ne_nil _ _ _ 2 hand.2),
      if_neg (by simp)]
    simp only [findTarget]
    rw [if_neg h02, if_neg h12]
    simp
  · rw [FileEdit_found _ _ _ _ _ _ (findMatches_eq hs), hm,
      if_neg (by simp), if_neg (fun hand => hne hand.2), if_neg (by simp)]
    simp only [findTarget]
    rw [if_neg (Ne.symm h0), if_neg (Ne.symm h1), if_neg (Ne.symm h2)]

set_option maxRecDepth 80000 in
set_option maxHeartbeats 4000000 in
/-- C4 witness: on "foo x foo y foo" (occurrences 0, 6, 12) the three
generated ids are pairwise distinct; the summary lists them, id 1 edits
exactly the middle occurrence, and a fresh id fails NotFound. -/
theorem c4_ambiguous_ids_witness :
    (FileEdit (asciiBytes "a.txt") (asciiBytes "foo x foo y foo") (asciiBytes "foo")
        (asciiBytes "qux") []
      = .ambiguousMatch
          [generateMatchID (asciiBytes "a.txt") (asciiBytes "foo") (asciiBytes "qux") 0,
           generateMatchID (asciiBytes "a.txt") (asciiBytes "foo") (asciiBytes "qux") 1,
           generateMatchID (asciiBytes "a.txt") (asciiBytes "foo") (asciiBytes "qux") 2]) ∧
    (FileEdit (asciiBytes "a.txt") (asciiBytes "foo x foo y foo") (asciiBytes "foo")
        (asciiBytes "qux")
        (generateMatchID (asciiBytes "a.txt") (asciiBytes "foo") (asciiBytes "qux") 1)
      = .ok ((asciiBytes "foo x foo y foo").take 6 ++ asciiBytes "qux"
          ++ (asciiBytes "foo x foo y foo").drop (6 + (asciiBytes "foo").length))) ∧
    (FileEdit (asciiBytes "a.txt") (asciiBytes "foo x foo y foo") (asciiBytes "foo")
        (asciiBytes "qux") (asciiBytes "zzzzzzzz") = .matchIDNotFound) := by
  refine ⟨?_, ?_, ?_⟩
  · exact (c4_ambiguous_ids _ _ _ _ 0 6 12 (by decide) (by decide)).1
  · exact (c4_ambiguous_ids _ _ _ _ 0 6 12 (by decide) (by decide)).2.2.1 (by decide)
  · exact (c4_ambiguous_ids _ _ _ _ 0 6 12 (by decide) (by decide)).2.2.2.2
      (asciiBytes "zzzzzzzz") (by decide) (by decide) (by decide) (by decide)

/-! ### FileRead claims -/

theorem splitNl_length_pos (l : List Nat) : 1 ≤ (splitNl l).length := by
  induction l with
  | nil => simp [splitNl]
  | cons c t ih =>
    unfold splitNl
    by_cases hc : c = 10
    · simp [hc]
    · rw [if_neg hc]
      cases hq : splitNl t <;> simp

/-- The start line actually used by FileRead: 1-based start clamped into
the segment range. -/
def resolvedStart (file : List Nat) (startLine : Int) : Int :=
  min (max (startLine - 1) 0) (((splitNl file).length : Int) - 1)

/-- The end line actually used by FileRead: clamped to the last segment. -/
def resolvedEnd (file : List Nat) (endLine : Int) : Int :=
  min endLine (((splitNl file).length : Int) - 1)

/-- Characterisation of FileRead with `readEntireFile = false`: the
`start < 0` RangeError branch is unreachable, and the result is decided by
comparing the two clamped bounds. -/
theorem FileRead_false_char (file : List Nat) (s e : Int) :
    FileRead file false s e
      = if resolvedEnd file e < resolvedStart file s then .error (.endBeforeStart e s)
        else .ok (List.intercalate [10] (((splitNl file).drop (resolvedStart file s).toNat).take
            ((resolvedEnd file e - resolvedStart file s).toNat))) := by
  have hn : (1 : Int) ≤ ((splitNl file).length : Int) := by
    exact_mod_cast splitNl_length_pos file
  unfold FileRead resolvedStart resolvedEnd
  simp only [Bool.false_eq_true, if_false, min_def, max_def, ge_iff_le]
  split_ifs <;> first
    | omega
    | rfl

/-- C5 counterexample: with startLine = 0 (which is < 1) on "a\nb\nc" the
claim demands a RangeError; the code's `start < 0` check is dead (the value
is clamped to 0 first) and the call succeeds with lines 1-2. -/
theorem c5_counterexample :
    (0 : Int) < 1 ∧
    FileRead (asciiBytes "a\nb\nc") false 0 2 = .ok (asciiBytes "a\nb") := by
  refine ⟨by decide, by rfl⟩

/-- C5 (amended): FileRead with readEntireFile=false never fails for
startLine < 1 (the start is clamped to line 1, the startOutOfRange error is
unreachable); it fails RangeError exactly when the clamped end precedes the
clamped start, and otherwise returns the newline segments from the clamped
start through the clamped end, where both bounds are clamped to the segment
count minus one (for a newline-terminated file that is its line count; a
file without a trailing newline loses its final line when endLine reaches
it). -/
theorem c5_line_range (file : List Nat) (s e : Int) :
    (s < 1 → resolvedStart file s = resolvedStart file 1) ∧
    (∀ s', FileRead file false s e ≠ .error (.startOutOfRange s')) ∧
    (resolvedEnd file e < resolvedStart file s →
      FileRead file false s e = .error (.endBeforeStart e s)) ∧
    (resolvedStart file s ≤ resolvedEnd file e →
      FileRead file false s e = .ok (List.intercalate [10]
        (((splitNl file).drop (resolvedStart file s).toNat).take
          ((resolvedEnd file e - resolvedStart file s).toNat)))) := by
  refine ⟨?_, ?_, ?_, ?_⟩
  · intro hs
    unfold resolvedStart
    simp only [min_def, max_def]
    split_ifs <;> omega
  · intro s'
    rw [FileRead_false_char]
    split_ifs <;> simp
  · intro h
    rw [FileRead_false_char, if_pos h]
  · intro h
    rw [FileRead_false_char, if_neg (by omega)]

/-- C5 witness: on a newline-terminated 10-line file, startLine=5, endLine=3
fails the RangeError and startLine=1, endLine=100 returns lines 1 through
10. -/
theorem c5_line_range_witness :
    FileRead (asciiBytes "l1\nl2\nl3\nl4\nl5\nl6\nl7\nl8\nl9\nl10\n") false 5 3
      = .error (.endBeforeStart 3 5) ∧
    FileRead (asciiBytes "l1\nl2\nl3\nl4\nl5\nl6\nl7\nl8\nl9\nl10\n") false 1 100
      = .ok (asciiBytes "l1\nl2\nl3\nl4\nl5\nl6\nl7\nl8\nl9\nl10") := by
  constructor
  · exact (c5_line_range (asciiBytes "l1\nl2\nl3\nl4\nl5\nl6\nl7\nl8\nl9\nl10\n") 5 3).2.2.1
      (by decide)
  · exact ((c5_line_range (asciiBytes "l1\nl2\nl3\nl4\nl5\nl6\nl7\nl8\nl9\nl10\n") 1 100).2.2.2
      (by decide)).trans (by rfl)

/-! ### UpdateConfig claims -/

/-- Path characterisation of UpdateConfig: the adopted config, the appended
notes and the transactional snapshot replacement in all four outcomes. -/
theorem updateConfig_char (e : Env) (newConfig : EnvironmentConfig) (now : Nat)
    (co : BuildOracle) (ho : HostBuildOracle) (syncIdRes : Except String String) :
    Env.updateConfig e newConfig now co ho syncIdRes
      = if isHostImage newConfig.baseImage then
          match (buildBaseHost newConfig ho).result with
          | .error err =>
            ({ state := { e.state with config := newConfig },
               notes := e.notes ++ (buildBaseHost newConfig ho).notes }, .error (.build err))
          | .ok _ =>
            ({ state :=
                 { e.state with config := newConfig, updatedAt := now, container := "host" },
               notes := e.notes ++ (buildBaseHost newConfig ho).notes }, .ok ())
        else
          match (buildBaseContainer newConfig co).result with
          | .error err =>
            ({ state := { e.state with config := newConfig },
               notes := e.notes ++ (buildBaseContainer newConfig co).notes }, .error (.build err))
          | .ok _ =>
            match syncIdRes with
            | .error m =>
              ({ state := { e.state with config := newConfig },
                 notes := e.notes ++ (buildBaseContainer newConfig co).notes },
               .error (.applyFailed m))
            | .ok cid =>
              ({ state :=
                   { e.state with config := newConfig, updatedAt := now, container := cid },
                 notes := e.notes ++ (buildBaseContainer newConfig co).notes }, .ok ()) := by
  unfold Env.updateConfig
  dsimp only [Env.isHost, Env.apply, Env.applyHost]
  by_cases hh : isHostImage newConfig.baseImage
  · simp only [hh, if_true]
  · simp only [hh, Bool.false_eq_true, if_false]
    cases (buildBaseContainer newConfig co).result
    · rfl
    · cases syncIdRes <;> rfl

/-- Concrete container-mode environment for the C2 counterexample. -/
def c2Env : Env :=
  { state := { config := { baseImage := "ubuntu", workdir := "/w", setupCommands := [],
                           installCommands := [], env := [], secrets := [] },
               title := "t", createdAt := 0, updatedAt := 1, container := "sha256:old",
               backgroundProcesses := [] },
    notes := [] }

/-- New config whose setup command fails during the C2 counterexample rebuild. -/
def c2NewConfig : EnvironmentConfig :=
  { baseImage := "debian", workdir := "/w", setupCommands := ["boom"],
    installCommands := [], env := [], secrets := [] }

/-- Build oracle for the C2 counterexample: the first setup command exits 127. -/
def c2Oracle : BuildOracle :=
  { setup := fun _ => .execError 127 "" "sh: boom: not found",
    install := fun _ => .ok 0 "" "", servicesRes := .ok () }

/-- Host build oracle (unused on the container path). -/
def c2HostOracle : HostBuildOracle :=
  { setup := fun _ => ("", none), install := fun _ => ("", none),
    environ := [], lookup := fun _ => none }

/-- C2 counterexample: a failing rebuild returns the build error with the
snapshot reference untouched — but the Environment's config has ALREADY been
replaced by newConfig (it is assigned before the rebuild and never rolled
back), contradicting the claim that config equals its pre-call value. -/
theorem c2_counterexample :
    (Env.updateConfig c2Env c2NewConfig 5 c2Oracle c2HostOracle (.ok "sha256:new")).1.state.config
        = c2NewConfig ∧
    c2NewConfig ≠ c2Env.state.config ∧
    exOk (Env.updateConfig c2Env c2NewConfig 5 c2Oracle c2HostOracle (.ok "sha256:new")).2
        = false ∧
    (Env.updateConfig c2Env c2NewConfig 5 c2Oracle c2HostOracle
        (.ok "sha256:new")).1.state.container = "sha256:old" := by
  refine ⟨rfl, by decide, rfl, rfl⟩

/-- C2 (amended): UpdateConfig replaces config with newConfig BEFORE
rebuilding and keeps it even when the rebuild fails (no rollback); the
transactional part holds only for the snapshot: on any failure snapshotRef
and updatedAt are unchanged and the error is surfaced, and on success
updatedAt is bumped and snapshotRef holds the freshly applied container id
(container mode) or "host" (host mode). -/
theorem c2_update_config_partial_adoption (e : Env) (newConfig : EnvironmentConfig) (now : Nat)
    (co : BuildOracle) (ho : HostBuildOracle) (syncIdRes : Except String String) :
    ((Env.updateConfig e newConfig now co ho syncIdRes).1.state.config = newConfig) ∧
    (∀ err, (Env.updateConfig e newConfig now co ho syncIdRes).2 = .error err →
      (Env.updateConfig e newConfig now co ho syncIdRes).1.state.container = e.state.container ∧
      (Env.updateConfig e newConfig now co ho syncIdRes).1.state.updatedAt
        = e.state.updatedAt) ∧
    ((Env.updateConfig e newConfig now co ho syncIdRes).2 = .ok () →
      (Env.updateConfig e newConfig now co ho syncIdRes).1.state.updatedAt = now ∧
      (isHostImage newConfig.baseImage = true →
        (Env.updateConfig e newConfig now co ho syncIdRes).1.state.container = "host") ∧
      (isHostImage newConfig.baseImage = false →
        syncIdRes
          = .ok ((Env.updateConfig e newConfig now co ho syncIdRes).1.state.container))) := by
  rw [updateConfig_char]
  by_cases hh : isHostImage newConfig.baseImage
  · simp only [hh, if_true]
    cases (buildBaseHost newConfig ho).result <;> simp
  · simp only [hh, Bool.false_eq_true, if_false]
    cases (buildBaseContainer newConfig co).result
    · simp
    · cases syncIdRes <;> simp

/-- C2 witness: the amended statement at the counterexample's concrete
input — config adopted, snapshot untouched, error surfaced. -/
theorem c2_update_config_partial_adoption_witness :
    (Env.updateConfig c2Env c2NewConfig 5 c2Oracle c2HostOracle (.ok "sha256:new")).1.state.config
        = c2NewConfig ∧
    (Env.updateConfig c2Env c2NewConfig 5 c2Oracle c2HostOracle
        (.ok "sha256:new")).1.state.container = c2Env.state.container ∧
    (Env.updateConfig c2Env c2NewConfig 5 c2Oracle c2HostOracle
        (.ok "sha256:new")).1.state.updatedAt = c2Env.state.updatedAt := by
  refine ⟨(c2_update_config_partial_adoption c2Env c2NewConfig 5 c2Oracle c2HostOracle
    (.ok "sha256:new")).1, ?_, ?_⟩
  · exact ((c2_update_config_partial_adoption c2Env c2NewConfig 5 c2Oracle c2HostOracle
      (.ok "sha256:new")).2.1 _ (by rfl)).1
  · exact ((c2_update_config_partial_adoption c2Env c2NewConfig 5 c2Oracle c2HostOracle
      (.ok "sha256:new")).2.1 _ (by rfl)).2

/-! ### Run claims -/

/-- C1: in container mode, for every command whose execution starts and
every exit code (including non-zero ones), Run with successful runtime
interactions returns no error: the snapshot reference is replaced by the
newly applied container id, updatedAt is bumped, a Notes entry with the exit
code, stdout and stderr is appended, and the returned combined output is
stdout plus — when stderr is non-empty — a delimited "stderr: " section;
Run's error channel fires exactly when one of the runtime interactions
(exit-code/stdout/stderr fetch or the state apply) fails, never on account
of the exit code itself. -/
theorem c1_run_swallows_exit_codes (e : Env) (command shell : String) (useEntrypoint : Bool)
    (now : Nat) (exitCode : Int) (stdout stderr cid : String) :
    (Env.runContainer e command shell useEntrypoint now
        (.ok exitCode) (.ok stdout) (.ok stderr) (.ok cid)
      = ({ state := { e.state with updatedAt := now, container := cid },
           notes := e.notes ++ [.command command exitCode stdout stderr] },
         .ok (if stderr = "" then stdout
              else (if stdout = "" then stdout else stdout ++ "\n") ++ "stderr: " ++ stderr))) ∧
    (∀ (exitCodeRes : Except String Int) (stdoutRes stderrRes syncIdRes : Except String String),
      exOk (Env.runContainer e command shell useEntrypoint now
          exitCodeRes stdoutRes stderrRes syncIdRes).2
        = (exOk exitCodeRes && exOk stdoutRes && exOk stderrRes && exOk syncIdRes)) := by
  constructor
  · rfl
  · intro exitCodeRes stdoutRes stderrRes syncIdRes
    cases exitCodeRes <;> cases stdoutRes <;> cases stderrRes <;> cases syncIdRes <;> rfl

/-! ### Env/secret validation claims -/

theorem parseKVs_append_error (pre post : List String) (entry : String)
    (hpre : ∀ x ∈ pre, (cutEq x).isSome) (hbad : cutEq entry = none) :
    parseKVs (pre ++ entry :: post) = .error entry := by
  induction pre with
  | nil => simp [parseKVs, hbad]
  | cons x rest ih =>
    have hx : (cutEq x).isSome := hpre x (by simp)
    obtain ⟨kv, hkv⟩ := Option.isSome_iff_exists.mp hx
    have ih' := ih fun y hy => hpre y (by simp [hy])
    simp [parseKVs, hkv, ih']
    rfl

theorem parseKVs_ok_of_all (l : List String) (h : ∀ x ∈ l, (cutEq x).isSome) :
    ∃ ps, parseKVs l = .ok ps := by
  induction l with
  | nil => exact ⟨[], rfl⟩
  | cons x rest ih =>
    have hx : (cutEq x).isSome := h x (by simp)
    obtain ⟨kv, hkv⟩ := Option.isSome_iff_exists.mp hx
    obtain ⟨ps, hps⟩ := ih fun y hy => h y (by simp [hy])
    exact ⟨kv :: ps, by simp [parseKVs, hkv, hps]; rfl⟩

/-- Concrete host-mode config with a malformed env entry and a malformed
secret entry for the C8 counterexample. -/
def c8Cfg : EnvironmentConfig :=
  { baseImage := "host", workdir := "/w", setupCommands := ["echo hi"],
    installCommands := [], env := ["MALFORMED"], secrets := ["BAD"] }

/-- Host build oracle for the C8 counterexample: the setup command
succeeds. -/
def c8Oracle : HostBuildOracle :=
  { setup := fun _ => ("hi\n", none), install := fun _ => ("", none),
    environ := [], lookup := fun _ => none }

/-- C8 counterexample: in host mode a malformed env entry ("MALFORMED",
which does not cut on `=`) is not rejected — the setup command still runs
(and is the executed command list), the build succeeds, and the malformed
entry is handed verbatim to the subprocess environment. -/
theorem c8_counterexample :
    cutEq "MALFORMED" = none ∧
    (buildBaseHost c8Cfg c8Oracle).executed = ["echo hi"] ∧
    (buildBaseHost c8Cfg c8Oracle).result = .ok () ∧
    "MALFORMED" ∈ (buildBaseHost c8Cfg c8Oracle).hostEnv := by
  refine ⟨by decide, rfl, rfl, by decide⟩

/-- C8 (amended): container mode behaves as claimed — the first env entry
(or, with all env entries well-formed, the first secret entry) that does not
split on `=` aborts the build before ANY command is handed to the runtime,
with no Notes entry; host mode, however, performs NO validation: env entries
(malformed or not) are appended verbatim to the subprocess environment,
malformed secrets are silently skipped, and the commands run regardless of
the entries. -/
theorem c8_validation_container_only
    (cfg : EnvironmentConfig) (o : BuildOracle) (ho : HostBuildOracle)
    (pre post : List String) (entry : String) :
    (cfg.env = pre ++ entry :: post → (∀ x ∈ pre, (cutEq x).isSome) → cutEq entry = none →
      buildBaseContainer cfg o
        = { executed := [], notes := [], hostEnv := [],
            result := .error (.config (.invalidEnv entry)) }) ∧
    (cfg.secrets = pre ++ entry :: post → (∀ x ∈ cfg.env, (cutEq x).isSome) →
      (∀ x ∈ pre, (cutEq x).isSome) → cutEq entry = none →
      buildBaseContainer cfg o
        = { executed := [], notes := [], hostEnv := [],
            result := .error (.config (.invalidSecret entry)) }) ∧
    (∀ x ∈ cfg.env, x ∈ buildHostEnv cfg ho.environ ho.lookup) ∧
    (∀ envEntries secretEntries,
      (buildBaseHost { cfg with env := envEntries, secrets := secretEntries } ho).executed
          = (buildBaseHost cfg ho).executed ∧
      (buildBaseHost { cfg with env := envEntries, secrets := secretEntries } ho).result
          = (buildBaseHost cfg ho).result) := by
  refine ⟨?_, ?_, ?_, ?_⟩
  · intro henv hpre hbad
    unfold buildBaseContainer containerWithEnvAndSecrets
    rw [henv, parseKVs_append_error pre post entry hpre hbad]
  · intro hsec henvok hpre hbad
    obtain ⟨ps, hps⟩ := parseKVs_ok_of_all cfg.env henvok
    unfold buildBaseContainer containerWithEnvAndSecrets
    rw [hps, hsec, parseKVs_append_error pre post entry hpre hbad]
  · intro x hx
    unfold buildHostEnv
    simp [hx]
  · intro envEntries secretEntries
    unfold buildBaseHost
    dsimp only
    cases (runCommandsH ho.setup cfg.setupCommands 0).2.2
    · cases (runCommandsH ho.install cfg.installCommands 0).2.2
      · exact ⟨rfl, rfl⟩
      · exact ⟨rfl, rfl⟩
    · exact ⟨rfl, rfl⟩

/-- C8 witness: a container-mode config whose second env entry is malformed
aborts the build naming that entry, with no command executed and no Notes
entry. -/
theorem c8_validation_container_only_witness :
    buildBaseContainer
        { baseImage := "ubuntu", workdir := "/w", setupCommands := ["echo hi"],
          installCommands := [], env := ["GOOD=1", "BAD"], secrets := [] }
        { setup := fun _ => .ok 0 "" "", install := fun _ => .ok 0 "" "",
          servicesRes := .ok () }
      = { executed := [], notes := [], hostEnv := [],
          result := .error (.config (.invalidEnv "BAD")) } := by
  exact (c8_validation_container_only
      { baseImage := "ubuntu", workdir := "/w", setupCommands := ["echo hi"],
        installCommands := [], env := ["GOOD=1", "BAD"], secrets := [] }
      { setup := fun _ => .ok 0 "" "", install := fun _ => .ok 0 "" "",
        servicesRes := .ok () }
      c8Oracle ["GOOD=1"] [] "BAD").1 rfl (by decide) (by decide)

/-! ### KillBackground claims -/

/-- Concrete host-mode environment with no tracked background processes. -/
def c9Env : Env :=
  { state := { config := { baseImage := "host", workdir := "/w", setupCommands := [],
                           installCommands := [], env := [], secrets := [] },
               title := "t", createdAt := 0, updatedAt := 1, container := "host",
               backgroundProcesses := [] },
    notes := [] }

/-- C9 counterexample: in host mode with NO BackgroundProcess tracked for
pid 42, KillBackground 42 must fail NotFound per the claim; the code never
consults the tracked list (and os.FindProcess always succeeds on Unix), so
it succeeds, sends both signals, and appends a Notes entry. -/
theorem c9_counterexample :
    c9Env.state.backgroundProcesses = [] ∧
    (Env.killBackground c9Env 42 7 (.ok ())).2.2 = .ok () ∧
    (Env.killBackground c9Env 42 7 (.ok ())).2.1
      = [.sigterm 42, .sleepMs 500, .sigkill 42] ∧
    (Env.killBackground c9Env 42 7 (.ok ())).1.notes
      = [.text "Stopped background process PID=42"] := by
  exact ⟨rfl, rfl, rfl, by rfl⟩

/-- C9 (amended): KillBackground fails UnsupportedOperation in container
mode (environment untouched, no signal sent); in host mode it does NOT look
up the pid in backgroundProcesses — a NotFound-style error can only come
from the platform process-table lookup itself (never on Unix); when that
lookup succeeds it sends SIGTERM, sleeps the fixed 500ms grace period, sends
SIGKILL, removes EVERY tracked entry with that pid (possibly none), bumps
updatedAt, leaves snapshotRef unchanged and appends a Notes entry. -/
theorem c9_kill_background (e : Env) (pid : Nat) (now : Nat) (findRes : Except String Unit) :
    (e.isHost = false →
      Env.killBackground e pid now findRes = (e, [], .error .unsupported)) ∧
    (∀ m, e.isHost = true → findRes = .error m →
      Env.killBackground e pid now findRes = (e, [], .error (.processNotFound m))) ∧
    (e.isHost = true → findRes = .ok () →
      Env.killBackground e pid now findRes
        = ({ state :=
               { e.state with
                 backgroundProcesses :=
                   e.state.backgroundProcesses.filter (fun bp => bp.pid ≠ pid),
                 updatedAt := now },
             notes := e.notes
               ++ [.text ("Stopped background process PID=" ++ toString pid)] },
           [.sigterm pid, .sleepMs 500, .sigkill pid], .ok ())) := by
  refine ⟨?_, ?_, ?_⟩
  · intro hh
    unfold Env.killBackground
    simp [hh]
  · intro m hh hf
    unfold Env.killBackground
    simp [hh, hf]
  · intro hh hf
    unfold Env.killBackground
    simp [hh, hf]

/-- Concrete host-mode environment tracking pids 42 and 43. -/
def c9EnvTracked : Env :=
  { state := { config := { baseImage := "host", workdir := "/w", setupCommands := [],
                           installCommands := [], env := [], secrets := [] },
               title := "t", createdAt := 0, updatedAt := 1, container := "host",
               backgroundProcesses :=
                 [{ pid := 42, command := "sleep 100", shell := "sh", ports := [8080],
                    workdir := "/w", startedAt := 1 },
                  { pid := 43, command := "sleep 200", shell := "sh", ports := [],
                    workdir := "/w", startedAt := 1 }] },
    notes := [] }

/-- C9 witness: killing pid 42 removes exactly its entry, keeps pid 43,
bumps updatedAt and appends the Notes entry. -/
theorem c9_kill_background_witness :
    Env.killBackground c9EnvTracked 42 7 (.ok ())
      = ({ state := { c9EnvTracked.state with
             backgroundProcesses :=
               [{ pid := 43, command := "sleep 200", shell := "sh", ports := [],
                  workdir := "/w", startedAt := 1 }],
             updatedAt := 7 },
           notes := [.text "Stopped background process PID=42"] },
         [.sigterm 42, .sleepMs 500, .sigkill 42], .ok ()) := by
  exact ((c9_kill_background c9EnvTracked 42 7 (.ok ())).2.2 rfl rfl).trans (by rfl)

/-! ### Mutation/state discipline claims -/

/-- Concrete host-mode environment for the C7 counterexample. -/
def c7Env : Env :=
  { state := { config := { baseImage := "host", workdir := "/w", setupCommands := [],
                           installCommands := [], env := [], secrets := [] },
               title := "t", createdAt := 0, updatedAt := 1, container := "host",
               backgroundProcesses := [] },
    notes := [] }

/-- C7 counterexample: a successful host-mode Run ("echo hi" exits 0, output
captured) leaves the entire State — updatedAt AND snapshotRef — unchanged,
so updatedAt does not strictly increase for every successful mutating
operation as the claim requires; only the Notes entry is appended. -/
theorem c7_counterexample :
    (Env.runHost c7Env "echo hi" "sh" ("hi\n", none)).2 = .ok "hi\n" ∧
    (Env.runHost c7Env "echo hi" "sh" ("hi\n", none)).1.state = c7Env.state ∧
    (Env.runHost c7Env "echo hi" "sh" ("hi\n", none)).1.notes
      = [.command "echo hi" 0 "hi\n" ""] := by
  exact ⟨rfl, rfl, rfl⟩

/-- C7 (amended): snapshot/time discipline per operation. Successful
container-mode Run, FileWrite, FileEdit, FileDelete and UpdateConfig set
updatedAt := now (hence strictly increase it when now is later) and replace
snapshotRef with the newly applied container id under the guard; host-mode
RunBackground and host-mode KillBackground bump updatedAt but never touch
snapshotRef; host-mode Run and container-mode RunBackground leave the State
entirely unchanged even on success; failed FileWrite/FileEdit/FileDelete and
UpdateConfig leave snapshotRef unchanged. -/
theorem c7_mutation_state_discipline (e : Env) (now : Nat)
    (hlt : e.state.updatedAt < now) :
    (∀ command shell ue (exitCode : Int) stdout stderr cid,
      e.state.updatedAt
          < (Env.runContainer e command shell ue now
              (.ok exitCode) (.ok stdout) (.ok stderr) (.ok cid)).1.state.updatedAt ∧
      (Env.runContainer e command shell ue now
          (.ok exitCode) (.ok stdout) (.ok stderr) (.ok cid)).1.state.container = cid) ∧
    (∀ command shell execRes, (Env.runHost e command shell execRes).1.state = e.state) ∧
    (∀ newConfig co ho syncIdRes,
      ((Env.updateConfig e newConfig now co ho syncIdRes).2 = .ok () →
        e.state.updatedAt < (Env.updateConfig e newConfig now co ho syncIdRes).1.state.updatedAt) ∧
      (∀ err, (Env.updateConfig e newConfig now co ho syncIdRes).2 = .error err →
        (Env.updateConfig e newConfig now co ho syncIdRes).1.state.container
          = e.state.container)) ∧
    (∀ targetFile cid,
      e.state.updatedAt < (Env.fileWrite e targetFile now (.ok cid)).1.state.updatedAt ∧
      (Env.fileWrite e targetFile now (.ok cid)).1.state.container = cid) ∧
    (∀ targetFile m, (Env.fileWrite e targetFile now (.error m)).1.state = e.state) ∧
    (∀ targetFile cid,
      e.state.updatedAt < (Env.fileDelete e targetFile now (.ok cid)).1.state.updatedAt ∧
      (Env.fileDelete e targetFile now (.ok cid)).1.state.container = cid) ∧
    (∀ targetFile m, (Env.fileDelete e targetFile now (.error m)).1.state = e.state) ∧
    (∀ targetFile search replace matchID contents newContents cid,
      FileEdit (asciiBytes targetFile) contents search replace matchID = .ok newContents →
      e.state.updatedAt
          < (Env.fileEdit e targetFile search replace matchID now
              (.ok contents) (.ok cid)).1.state.updatedAt ∧
      (Env.fileEdit e targetFile search replace matchID now
          (.ok contents) (.ok cid)).1.state.container = cid) ∧
    (∀ targetFile search replace matchID readRes syncIdRes err,
      (Env.fileEdit e targetFile search replace matchID now readRes syncIdRes).2 = .error err →
      (Env.fileEdit e targetFile search replace matchID now
          readRes syncIdRes).1.state.container = e.state.container) ∧
    (∀ command shell ports o chosen pid,
      trimSpace command ≠ "" → choosePorts o.choose ports 0 = .ok chosen →
      o.startRes = .ok pid →
      e.state.updatedAt
          < (Env.runBackgroundHost e command shell ports now o).1.state.updatedAt ∧
      (Env.runBackgroundHost e command shell ports now o).1.state.container
          = e.state.container ∧
      (Env.runBackgroundHost e command shell ports now o).1.state.backgroundProcesses
          = e.state.backgroundProcesses
            ++ [{ pid := pid, command := command, shell := shell, ports := chosen,
                  workdir := e.state.config.workdir, startedAt := now }]) ∧
    (∀ command shell ports o,
      (Env.runBackgroundContainer e command shell ports o).1.state = e.state) ∧
    (∀ pid findRes, e.isHost = true → findRes = .ok () →
      e.state.updatedAt < (Env.killBackground e pid now findRes).1.state.updatedAt ∧
      (Env.killBackground e pid now findRes).1.state.container = e.state.container) := by
  refine ⟨?_, ?_, ?_, ?_, ?_, ?_, ?_, ?_, ?_, ?_, ?_, ?_⟩
  · intro command shell ue exitCode stdout stderr cid
    exact ⟨hlt, rfl⟩
  · intro command shell execRes
    unfold Env.runHost
    split
    · rfl
    · rfl
  · intro newConfig co ho syncIdRes
    rw [updateConfig_char]
    constructor
    · intro hok
      by_cases hh : isHostImage newConfig.baseImage
      · simp only [hh, if_true] at hok ⊢
        cases hb : (buildBaseHost newConfig ho).result
        · rw [hb] at hok; simp at hok
        · simpa using hlt
      · simp only [hh, Bool.false_eq_true, if_false] at hok ⊢
        cases hb : (buildBaseContainer newConfig co).result
        · rw [hb] at hok; simp at hok
        · cases syncIdRes
          · rw [hb] at hok; simp at hok
          · simpa using hlt
    · intro err herr
      by_cases hh : isHostImage newConfig.baseImage
      · simp only [hh, if_true] at herr ⊢
        cases hb : (buildBaseHost newConfig ho).result
        · rfl
        · rw [hb] at herr; simp at herr
      · simp only [hh, Bool.false_eq_true, if_false] at herr ⊢
        cases hb : (buildBaseContainer newConfig co).result
        · rfl
        · cases syncIdRes
          · rfl
          · rw [hb] at herr; simp at herr
  · intro targetFile cid
    exact ⟨hlt, rfl⟩
  · intro targetFile m
    rfl
  · intro targetFile cid
    exact ⟨hlt, rfl⟩
  · intro targetFile m
    rfl
  · intro targetFile search replace matchID contents newContents cid hedit
    unfold Env.fileEdit
    dsimp only
    rw [hedit]
    exact ⟨hlt, rfl⟩
  · intro targetFile search replace matchID readRes syncIdRes err herr
    unfold Env.fileEdit at herr ⊢
    cases readRes
    · rfl
    · next contents =>
      dsimp only at herr ⊢
      cases hres : FileEdit (asciiBytes targetFile) contents search replace matchID
      · rw [hres] at herr
        cases syncIdRes
        · rfl
        · simp [Env.apply] at herr
      · rfl
      · rfl
      · rfl
      · rfl
  · intro command shell ports o chosen pid hc hp hs
    unfold Env.runBackgroundHost
    rw [if_neg (by simpa using hc), hp, hs]
    exact ⟨hlt, rfl, rfl⟩
  · intro command shell ports o
    unfold Env.runBackgroundContainer
    cases o.startRes
    · rfl
    · rfl
    · rfl
    · cases bindEndpoints o ports
      · rfl
      · rfl
  · intro pid findRes hh hf
    unfold Env.killBackground
    simp only [hh, hf]
    exact ⟨by simpa using hlt, rfl⟩

/-- Concrete container-mode environment for the C7 witness. -/
def c7CtrEnv : Env :=
  { state := { config := { baseImage := "ubuntu", workdir := "/w", setupCommands := [],
                           installCommands := [], env := [], secrets := [] },
               title := "t", createdAt := 0, updatedAt := 1, container := "sha256:old",
               backgroundProcesses := [] },
    notes := [] }

/-- C7 witness: a successful container-mode Run at a later tick strictly
increases updatedAt and replaces the snapshot reference, while a successful
host-mode Run leaves the State untouched. -/
theorem c7_mutation_state_discipline_witness :
    (c7CtrEnv.state.updatedAt
        < (Env.runContainer c7CtrEnv "make" "sh" false 9 (.ok 2) (.ok "out") (.ok "err")
            (.ok "sha256:new")).1.state.updatedAt) ∧
    ((Env.runContainer c7CtrEnv "make" "sh" false 9 (.ok 2) (.ok "out") (.ok "err")
        (.ok "sha256:new")).1.state.container = "sha256:new") ∧
    ((Env.runHost c7Env "echo hi" "sh" ("hi\n", none)).1.state = c7Env.state) := by
  refine ⟨?_, ?_, ?_⟩
  · exact ((c7_mutation_state_discipline c7CtrEnv 9 (by decide)).1
      "make" "sh" false 2 "out" "err" "sha256:new").1
  · exact ((c7_mutation_state_discipline c7CtrEnv 9 (by decide)).1
      "make" "sh" false 2 "out" "err" "sha256:new").2
  · exact (c7_mutation_state_discipline c7Env 9 (by decide)).2.1 "echo hi" "sh" ("hi\n", none)

/-! ### Repository lock claims -/


/-- Core properties of the WithLock control flow, for one acquisition trace. -/
theorem withLock_props (avail : Nat → Bool) (deadlineMs : Nat) (fn : FnOutcome) :
    (heldAfter (RepositoryLock.WithLock avail deadlineMs fn).1 = false) ∧
    ((RepositoryLock.WithLock avail deadlineMs fn).2 = .lockTimeout ↔
      ∀ i < pollCount deadlineMs, avail i = false) ∧
    ((RepositoryLock.WithLock avail deadlineMs fn).2 = .lockTimeout →
      invokedFn (RepositoryLock.WithLock avail deadlineMs fn).1 = false) ∧
    ((RepositoryLock.WithLock avail deadlineMs fn).2 ≠ .lockTimeout →
      (RepositoryLock.WithLock avail deadlineMs fn).2 = propagateOutcome fn ∧
      invokedFn (RepositoryLock.WithLock avail deadlineMs fn).1 = true) ∧
    (pollsIn (RepositoryLock.WithLock avail deadlineMs fn).1 ≤ pollCount deadlineMs) ∧
    (∀ i, LockEv.pollFail i ∈ (RepositoryLock.WithLock avail deadlineMs fn).1 →
      retryDelayMs * i < deadlineMs) := by
  have hfail := tryLockPolls_fail_iff avail (pollCount deadlineMs) 0
  unfold RepositoryLock.WithLock lockAcquire
  by_cases hA : (tryLockPolls avail (pollCount deadlineMs) 0).2 = true
  · simp only [hA, if_true]
    refine ⟨?_, ?_, ?_, ?_, ?_, ?_⟩
    · simp [heldAfter, List.foldl_append, heldStep, fnEvent]
    · constructor
      · intro h
        exfalso
        cases fn <;> simp [propagateOutcome] at h
      · intro hall
        have h0 := hfail.mpr fun j _ hj => hall j (by omega)
        rw [h0] at hA
        exact absurd hA (by simp)
    · intro h
      exfalso
      cases fn <;> simp [propagateOutcome] at h
    · intro _
      exact ⟨trivial, by simp [invokedFn, List.any_append, fnEvent]⟩
    · simpa [pollsIn, List.countP_append, List.countP_cons] using
        tryLockPolls_poll_bound avail (pollCount deadlineMs) 0
    · intro i hi
      simp only [List.mem_append] at hi
      rcases hi with hi | hi
      · have hb := tryLockPolls_mem_pollFail avail (pollCount deadlineMs) 0 i hi
        simp only [retryDelayMs, pollCount] at hb ⊢
        omega
      · simp [fnEvent] at hi
  · have hAf : (tryLockPolls avail (pollCount deadlineMs) 0).2 = false := by simpa using hA
    simp only [hAf, Bool.false_eq_true, if_false]
    refine ⟨?_, ?_, ?_, ?_, ?_, ?_⟩
    · exact tryLockPolls_fail_foldl avail (pollCount deadlineMs) 0 hAf false
    · constructor
      · intro _ i hi
        exact hfail.mp hAf i (by omega) (by omega)
      · intro _
        trivial
    · intro _
      exact tryLockPolls_no_fn avail (pollCount deadlineMs) 0
    · intro h
      exact absurd rfl h
    · exact tryLockPolls_poll_bound avail (pollCount deadlineMs) 0
    · intro i hi
      have hb := tryLockPolls_mem_pollFail avail (pollCount deadlineMs) 0 i hi
      simp only [retryDelayMs, pollCount] at hb ⊢
      omega

/-- WithRLock has the same control flow as WithLock over its own
acquisition trace (lock.go lines 133-140 mirror lines 123-130). -/
theorem withRLock_eq_withLock (ravail : Nat → Bool) (deadlineMs : Nat) (fn : FnOutcome) :
    RepositoryLock.WithRLock ravail deadlineMs fn
      = RepositoryLock.WithLock ravail deadlineMs fn := rfl

/-- C6: WithLock and WithRLock never leave the lock held on any exit path
(normal return, error return or panic of the protected function; Go defer
runs during panic unwinding); the protected function's outcome is propagated
unchanged exactly when the lock was acquired; acquisition polls at the fixed
100ms interval, every poll happens strictly before the caller-supplied
deadline, the number of polls is bounded by ceil(deadline/100) (never
unbounded), and when every poll in that window finds the lock taken the call
fails LockTimeout WITHOUT invoking the protected function. -/
theorem c6_with_lock_discipline (avail ravail : Nat → Bool) (deadlineMs : Nat)
    (fn : FnOutcome) :
    (heldAfter (RepositoryLock.WithLock avail deadlineMs fn).1 = false) ∧
    ((RepositoryLock.WithLock avail deadlineMs fn).2 = .lockTimeout ↔
      ∀ i < pollCount deadlineMs, avail i = false) ∧
    ((RepositoryLock.WithLock avail deadlineMs fn).2 = .lockTimeout →
      invokedFn (RepositoryLock.WithLock avail deadlineMs fn).1 = false) ∧
    ((RepositoryLock.WithLock avail deadlineMs fn).2 ≠ .lockTimeout →
      (RepositoryLock.WithLock avail deadlineMs fn).2 = propagateOutcome fn ∧
      invokedFn (RepositoryLock.WithLock avail deadlineMs fn).1 = true) ∧
    (pollsIn (RepositoryLock.WithLock avail deadlineMs fn).1 ≤ pollCount deadlineMs) ∧
    (∀ i, LockEv.pollFail i ∈ (RepositoryLock.WithLock avail deadlineMs fn).1 →
      retryDelayMs * i < deadlineMs) ∧
    (heldAfter (RepositoryLock.WithRLock ravail deadlineMs fn).1 = false) ∧
    ((RepositoryLock.WithRLock ravail deadlineMs fn).2 = .lockTimeout →
      invokedFn (RepositoryLock.WithRLock ravail deadlineMs fn).1 = false) ∧
    ((RepositoryLock.WithRLock ravail deadlineMs fn).2 ≠ .lockTimeout →
      (RepositoryLock.WithRLock ravail deadlineMs fn).2 = propagateOutcome fn) := by
  obtain ⟨a1, a2, a3, a4, a5, a6⟩ := withLock_props avail deadlineMs fn
  obtain ⟨b1, b2, b3, b4, b5, b6⟩ := withLock_props ravail deadlineMs fn
  rw [withRLock_eq_withLock]
  exact ⟨a1, a2, a3, a4, a5, a6, b1, b3, fun h => (b4 h).1⟩

/-- C6 witness: with the lock free from the third poll on and a 1 second
deadline, WithLock runs the protected function, propagates its error
unchanged and releases; with the lock never free and a 250ms deadline it
times out without invoking the function. -/
theorem c6_with_lock_discipline_witness :
    ((RepositoryLock.WithLock (fun i => decide (i = 2)) 1000 (.err "boom")).2
        = .err "boom") ∧
    (heldAfter (RepositoryLock.WithLock (fun i => decide (i = 2)) 1000 (.err "boom")).1
        = false) ∧
    ((RepositoryLock.WithLock (fun _ => false) 250 .ok).2 = .lockTimeout) ∧
    (invokedFn (RepositoryLock.WithLock (fun _ => false) 250 .ok).1 = false) := by
  refine ⟨?_, ?_, ?_, ?_⟩
  · exact ((c6_with_lock_discipline (fun i => decide (i = 2)) (fun _ => false) 1000
      (.err "boom")).2.2.2.1 (by decide)).1
  · exact (c6_with_lock_discipline (fun i => decide (i = 2)) (fun _ => false) 1000
      (.err "boom")).1
  · exact (c6_with_lock_discipline (fun _ => false) (fun _ => false) 250 .ok).2.1.mpr
      (by decide)
  · exact (c6_with_lock_discipline (fun _ => false) (fun _ => false) 250 .ok).2.2.1
      ((c6_with_lock_discipline (fun _ => false) (fun _ => false) 250 .ok).2.1.mpr
        (by decide))
